import Mathlib

/-
Verification development for the eva/quickvision per-connection streaming
event pipeline.  The definitions below are shallow embeddings of the Python
source under packages/eva/vision/app (protocol.py, tracking.py, events.py,
roi.py, motion.py, collision.py, abandoned.py, insights.py) and of the
connection scheduler in packages/quickvision/app/main.py.

Modelling conventions:
  - machine integers and millisecond timestamps are Lean Int,
  - pixel coordinates and speeds are Lean Rat,
  - Python dict-with-default state fields become Option / Bool fields,
  - library calls that are external to the repository (math.hypot,
    json.loads / pydantic parsing) are passed in as function parameters,
    so every theorem quantifies over them,
  - byte strings are List Nat.
-/

namespace Eva

/-- Pixel point, the box centroid used by every geometry engine. -/
abbrev Point := ℚ × ℚ

/-- Payload of an emitted event, one constructor per event family
(protocol.py EventEntry has an untyped data dict; the engines only ever
store these shapes). -/
inductive EventData where
  | roi (roiName : String)
  | roiDwell (roiName : String) (dwellMs : Int)
  | lineCross (lineName : String) (direction : String)
  | suddenMotion (speedPxS : ℚ)
  | trackStop (stoppedMs : Int)
  | nearCollision (aTrackId bTrackId : Int) (aClass bClass : String)
      (distancePx closingSpeedPxS : ℚ)
  | abandonedObject (objectTrackId : Int) (objectClass : String)
      (personTrackId : Option Int) (roiName : Option String) (abandonMs : Int)
deriving DecidableEq

/-- protocol.py EventEntry. -/
structure EventEntry where
  name : String
  tsMs : Int
  severity : String
  trackId : Option Int
  data : EventData
deriving DecidableEq

/-- Insert or replace a key in an association list (dict assignment). -/
def assocSet {α β : Type} [DecidableEq α] : List (α × β) → α → β → List (α × β)
  | [], k, v => [(k, v)]
  | (k', v') :: rest, k, v =>
      if k' = k then (k, v) :: rest else (k', v') :: assocSet rest k v

/-! ## Tracking settings and the connection scheduler slot policy
(tracking.py, quickvision/app/main.py infer_socket). -/

/-- tracking.py TrackingBusyPolicy. -/
inductive BusyPolicy where
  | drop
  | latest
deriving DecidableEq

/-- tracking.py TrackingSettings (the two fields the scheduler reads). -/
structure TrackingSettings where
  enabled : Bool
  busyPolicy : BusyPolicy
deriving DecidableEq

/-- tracking.py should_use_latest_pending_slot:
`config.enabled and config.busy_policy == "latest"`. -/
def shouldUseLatestPendingSlot (config : TrackingSettings) : Bool :=
  config.enabled && config.busyPolicy == BusyPolicy.latest

/-- yolo.py InferenceFrame, the value placed in the pending slot. -/
structure InferenceFrame where
  frameId : String
  width : Int
  height : Int
  imageBytes : List Nat
deriving DecidableEq

/-- The scheduler state touched by the busy-policy branch of infer_socket:
the single-entry pending slot and the worker running flag. -/
structure SchedulerState where
  pendingFrame : Option InferenceFrame
  inferenceRunning : Bool
deriving DecidableEq

/-- quickvision/app/main.py infer_socket, lines 364-380: what happens to a
validly decoded frame.  Under the latest policy the slot is overwritten
unconditionally; otherwise a busy worker or an occupied slot produces a
BUSY error and the frame is dropped. -/
def ingestDecodedFrame (useLatestPendingSlot : Bool) (st : SchedulerState)
    (frame : InferenceFrame) : SchedulerState × Option String :=
  if useLatestPendingSlot then
    ({ st with pendingFrame := some frame }, none)
  else if st.inferenceRunning || st.pendingFrame.isSome then
    (st, some "BUSY")
  else
    ({ st with pendingFrame := some frame }, none)

/-- Folding ingestDecodedFrame over a burst of decoded frames received while
the worker never takes the slot; returns the final state and the per-frame
error replies. -/
def ingestDecodedFrames (useLatestPendingSlot : Bool) :
    SchedulerState → List InferenceFrame → SchedulerState × List (Option String)
  | st, [] => (st, [])
  | st, f :: fs =>
      let r := ingestDecodedFrame useLatestPendingSlot st f
      let rest := ingestDecodedFrames useLatestPendingSlot r.1 fs
      (rest.1, r.2 :: rest.2)

/-! ## Binary frame envelope decoding (protocol.py). -/

/-- The JSON object view of the binary frame metadata before schema
validation: every field the frame_binary schema reads, as it may or may
not be present in the parsed JSON.  json.loads itself is external, so the
decoder below takes the bytes-to-RawFrameMeta parse as a parameter; a
parse result of none stands for payload bytes that are not UTF-8 JSON. -/
structure RawFrameMeta where
  typeField : Option String
  v : Option Int
  frameId : Option String
  tsMs : Option Int
  mime : Option String
  width : Option Int
  height : Option Int
  imageBytes : Option Int
deriving DecidableEq

/-- protocol.py FrameBinaryMetaMessage (the validated metadata). -/
structure FrameBinaryMetaMessage where
  frameId : String
  tsMs : Int
  mime : String
  width : Int
  height : Int
  imageBytes : Int
deriving DecidableEq

/-- protocol.py FrameBinaryMetaMessage.model_validate: the frame_binary
schema constraints (type="frame_binary", v=1, non-empty frame_id,
ts_ms>=0, mime="image/jpeg", width>=1, height>=1, image_bytes>=1). -/
def modelValidateFrameBinaryMeta (r : RawFrameMeta) : Option FrameBinaryMetaMessage :=
  match r.typeField, r.v, r.frameId, r.tsMs, r.mime, r.width, r.height, r.imageBytes with
  | some t, some v, some fid, some ts, some mime, some w, some h, some ib =>
      if t = "frame_binary" ∧ v = 1 ∧ 1 ≤ fid.length ∧ 0 ≤ ts ∧ mime = "image/jpeg"
          ∧ 1 ≤ w ∧ 1 ≤ h ∧ 1 ≤ ib then
        some ⟨fid, ts, mime, w, h, ib⟩
      else
        none
  | _, _, _, _, _, _, _, _ => none

/-- int.from_bytes(..., byteorder="big", signed=False). -/
def bytesToNatBE (bytes : List Nat) : Nat :=
  bytes.foldl (fun acc b => acc * 256 + b) 0

/-- protocol.py BinaryFrameEnvelope. -/
structure BinaryFrameEnvelope where
  meta : FrameBinaryMetaMessage
  imagePayload : List Nat
deriving DecidableEq

/-- protocol.py decode_binary_frame_envelope, with the UTF-8/JSON parse of
the metadata bytes abstracted as jsonParse (none = not valid UTF-8 JSON). -/
def decodeBinaryFrameEnvelope (jsonParse : List Nat → Option RawFrameMeta)
    (payload : List Nat) : Except String BinaryFrameEnvelope :=
  if payload.length < 4 then
    .error "Binary frame payload is too short."
  else
    let metadataLength := bytesToNatBE (payload.take 4)
    if metadataLength ≤ 0 then
      .error "Binary frame metadata length must be greater than zero."
    else
      let metadataEnd := 4 + metadataLength
      if payload.length < metadataEnd then
        .error "Binary frame metadata length exceeds payload size."
      else
        let metadataRaw := (payload.drop 4).take metadataLength
        match jsonParse metadataRaw with
        | none => .error "Binary frame metadata is not valid JSON."
        | some rawMeta =>
            match modelValidateFrameBinaryMeta rawMeta with
            | none => .error "Binary frame metadata is invalid."
            | some meta =>
                let imagePayload := payload.drop metadataEnd
                if (imagePayload.length : Int) ≠ meta.imageBytes then
                  .error "Binary frame image length mismatch."
                else
                  .ok ⟨meta, imagePayload⟩

/-- True when decoding raised BinaryFrameParseError. -/
def decodeFailed (r : Except String BinaryFrameEnvelope) : Bool :=
  match r with
  | .error _ => true
  | .ok _ => false

/-- infer_socket lines 349-353: a failed decode is answered with an error
of code INVALID_FRAME_BINARY and no frame is produced. -/
def handleBinaryPayload (jsonParse : List Nat → Option RawFrameMeta)
    (payload : List Nat) : Option String × Option BinaryFrameEnvelope :=
  match decodeBinaryFrameEnvelope jsonParse payload with
  | .error _ => (some "INVALID_FRAME_BINARY", none)
  | .ok env => (none, some env)

/-- The receive loop keeps running after a decode failure (the except arm
ends in continue): each inbound binary payload is handled independently. -/
def handleBinaryPayloads (jsonParse : List Nat → Option RawFrameMeta) :
    List (List Nat) → List (Option String × Option BinaryFrameEnvelope)
  | [] => []
  | p :: ps => handleBinaryPayload jsonParse p :: handleBinaryPayloads jsonParse ps

/-! ## ROI region engine (roi.py, events.py DetectionEventEngine._append_region_events).
Per (track, region) state is independent (each dict is keyed by region
name and the engine dict by track id), so the engine is modelled per
track and region. -/

/-- roi.py RoiRegion (after load normalisation x1<=x2, y1<=y2). -/
structure RoiRegion where
  x1 : ℚ
  y1 : ℚ
  x2 : ℚ
  y2 : ℚ
deriving DecidableEq

/-- roi.py point_in_region: inclusive on both edges. -/
def pointInRegion (p : Point) (r : RoiRegion) : Bool :=
  if r.x1 ≤ p.1 ∧ p.1 ≤ r.x2 ∧ r.y1 ≤ p.2 ∧ p.2 ≤ r.y2 then true else false

/-- roi.py RoiSettings, the fields the region engine reads. -/
structure RoiSettings where
  transitionMinMs : Int
  dwellDefaultThresholdMs : Int
  dwellRegionThresholdMs : List (String × Int)
deriving DecidableEq

/-- roi.py RoiSettings.dwell_threshold_ms_for_region: per-region override
or the default. -/
def RoiSettings.dwellThresholdMsForRegion (s : RoiSettings) (regionName : String) : Int :=
  match s.dwellRegionThresholdMs.lookup regionName with
  | some v => v
  | none => s.dwellDefaultThresholdMs

/-- The per-region slice of events.py TrackEventState: committed inside
flag (dict default False), enter timestamp, dwell-emitted flag (dict
default False), and the debounce pending pair. -/
structure RegionTrackState where
  committedInside : Bool
  enterTsMs : Option Int
  dwellEmitted : Bool
  pendingInside : Option Bool
  pendingSinceTsMs : Option Int
deriving DecidableEq

/-- Fresh TrackEventState entry for a region: every dict lookup falls back
to its default. -/
def initialRegionTrackState : RegionTrackState :=
  ⟨false, none, false, none, none⟩

/-- events.py _append_region_events, transition part (lines 151-231): the
immediate commit rule when min_transition_ms <= 0, else the debounced
pending-state rule. -/
def regionTransitionStep (minTransitionMs : Int) (regionName : String) (trackId : Int)
    (tsMs : Int) (insideNow : Bool) (s : RegionTrackState) :
    RegionTrackState × List EventEntry :=
  if minTransitionMs ≤ 0 then
    let s0 := { s with pendingInside := none, pendingSinceTsMs := none }
    if insideNow && !s0.committedInside then
      ({ s0 with committedInside := insideNow, enterTsMs := some tsMs, dwellEmitted := false },
       [⟨"roi_enter", tsMs, "low", some trackId, EventData.roi regionName⟩])
    else if s0.committedInside && !insideNow then
      ({ s0 with committedInside := insideNow, enterTsMs := none, dwellEmitted := false },
       [⟨"roi_exit", tsMs, "low", some trackId, EventData.roi regionName⟩])
    else
      ({ s0 with committedInside := insideNow }, [])
  else
    if insideNow = s.committedInside then
      ({ s with pendingInside := none, pendingSinceTsMs := none }, [])
    else if s.pendingInside ≠ some insideNow then
      ({ s with pendingInside := some insideNow, pendingSinceTsMs := some tsMs }, [])
    else
      match s.pendingSinceTsMs with
      | none => ({ s with pendingSinceTsMs := some tsMs }, [])
      | some since =>
          let elapsedMs := max (tsMs - since) 0
          if minTransitionMs ≤ elapsedMs then
            if insideNow then
              ({ s with committedInside := insideNow, enterTsMs := some tsMs,
                        dwellEmitted := false, pendingInside := none, pendingSinceTsMs := none },
               [⟨"roi_enter", tsMs, "low", some trackId, EventData.roi regionName⟩])
            else
              ({ s with committedInside := insideNow, enterTsMs := none,
                        dwellEmitted := false, pendingInside := none, pendingSinceTsMs := none },
               [⟨"roi_exit", tsMs, "low", some trackId, EventData.roi regionName⟩])
          else
            (s, [])

/-- events.py _append_region_events, dwell part (lines 233-254): while
committed inside, emit roi_dwell once per entry when the dwell duration
reaches the region threshold. -/
def regionDwellStep (dwellThresholdMs : Int) (regionName : String) (trackId : Int)
    (tsMs : Int) (s : RegionTrackState) : RegionTrackState × List EventEntry :=
  if s.committedInside then
    let enterTs := match s.enterTsMs with
      | some e => e
      | none => tsMs
    let s1 := { s with enterTsMs := some enterTs }
    let dwellMs := max (tsMs - enterTs) 0
    if s1.dwellEmitted = false ∧ dwellThresholdMs ≤ dwellMs then
      ({ s1 with dwellEmitted := true },
       [⟨"roi_dwell", tsMs, "medium", some trackId, EventData.roiDwell regionName dwellMs⟩])
    else
      (s1, [])
  else
    (s, [])

/-- One observation of a track against one region: transition rule then
dwell rule, events appended in that order (the body of the region loop of
_append_region_events, with inside_now already computed). -/
def appendRegionEventsCore (minTransitionMs dwellThresholdMs : Int) (regionName : String)
    (trackId : Int) (tsMs : Int) (insideNow : Bool) (s : RegionTrackState) :
    RegionTrackState × List EventEntry :=
  let r1 := regionTransitionStep minTransitionMs regionName trackId tsMs insideNow s
  let r2 := regionDwellStep dwellThresholdMs regionName trackId tsMs r1.1
  (r2.1, r1.2 ++ r2.2)

/-- The body of the region loop of _append_region_events for one region:
inside_now is point_in_region of the track centroid. -/
def appendRegionEvents (roi : RoiSettings) (regionName : String) (region : RoiRegion)
    (trackId : Int) (tsMs : Int) (point : Point) (s : RegionTrackState) :
    RegionTrackState × List EventEntry :=
  appendRegionEventsCore roi.transitionMinMs (roi.dwellThresholdMsForRegion regionName)
    regionName trackId tsMs (pointInRegion point region) s

/-- A run of the region rules for one track against one region, restricted
to the frames in which the track is observed (timestamp and centroid),
collecting the (track, region) events in order.  This covers a single
track-state lifetime: the TTL eviction the full engine performs between
frames (events.py lines 134-135, 283-291) is modelled separately by
runDetectionEngine below. -/
def runRegionEngine (roi : RoiSettings) (regionName : String) (region : RoiRegion)
    (trackId : Int) (s : RegionTrackState) :
    List (Int × Point) → RegionTrackState × List EventEntry
  | [] => (s, [])
  | (tsMs, point) :: rest =>
      let r := appendRegionEvents roi regionName region trackId tsMs point s
      let r2 := runRegionEngine roi regionName region trackId r.1 rest
      (r2.1, r.2 ++ r2.2)

/-- Projection of an event list to its roi_enter/roi_exit subsequence
(true = enter, false = exit). -/
def enterExitProj (events : List EventEntry) : List Bool :=
  events.filterMap (fun e =>
    if e.name = "roi_enter" then some true
    else if e.name = "roi_exit" then some false
    else none)

/-- Strict alternation check: the next element must equal expected, then
the expectation flips. -/
def alternatesFrom : Bool → List Bool → Bool
  | _, [] => true
  | expected, x :: xs => x == expected && alternatesFrom (!expected) xs

/-- Projection of an event list to its roi_dwell/roi_enter subsequence
(true = dwell, false = enter, the re-arming boundary). -/
def enterDwellProj (events : List EventEntry) : List Bool :=
  events.filterMap (fun e =>
    if e.name = "roi_dwell" then some true
    else if e.name = "roi_enter" then some false
    else none)

/-- Once-per-window check over a marker sequence: a true marker consumes
the armed flag and a false marker re-arms it, so two true markers without
a false marker in between fail. -/
def separatedMarkers : Bool → List Bool → Bool
  | _, [] => true
  | armed, true :: xs => armed && separatedMarkers false xs
  | _, false :: xs => separatedMarkers true xs

/-! ## The full detection engine over frames
(events.py DetectionEventEngine.process, roi branch, with the
TRACK_STATE_TTL_MS eviction of lines 134-135 and 283-291). -/

/-- events.py TRACK_STATE_TTL_MS. -/
def trackStateTtlMs : Int := 30000

/-- events.py TrackEventState: the per-region dicts reorganised as one
assoc list of per-region slices, plus last_seen_ts_ms.  The line_side
dict only feeds line_cross events and never touches the region slices,
so it is omitted. -/
structure TrackEventState where
  regionStates : List (String × RegionTrackState)
  lastSeenTsMs : Int
deriving DecidableEq

/-- A detection as the roi branch of process consumes it: the optional
track id and the box centroid point = box_centroid(detection.box)
(events.py line 65), carried directly like CollisionSample and
AbandonedSample. -/
structure Detection where
  trackId : Option Int
  point : Point
deriving DecidableEq

/-- protocol.py DetectionsMessage, the fields process reads. -/
structure DetectionsFrame where
  tsMs : Int
  detections : List Detection
deriving DecidableEq

/-- The region loop of _append_region_events over all configured regions
(events.py line 153): each region name reads its per-region slice of the
track state, with dict defaults, and writes it back. -/
def appendRegionEventsAll (roi : RoiSettings) (trackId tsMs : Int) (point : Point) :
    List (String × RoiRegion) → List (String × RegionTrackState) →
    List (String × RegionTrackState) × List EventEntry
  | [], rs => (rs, [])
  | (rn, rg) :: rest, rs =>
      let r := appendRegionEvents roi rn rg trackId tsMs point
        ((rs.lookup rn).getD initialRegionTrackState)
      let r2 := appendRegionEventsAll roi trackId tsMs point rest (assocSet rs rn r.1)
      (r2.1, r.2 ++ r2.2)

/-- The detections loop of DetectionEventEngine.process (events.py lines
56-106), roi branch: skip detections without a track id and duplicate
track ids, create the track state on first sight, refresh
last_seen_ts_ms, then run the region loop on the centroid point.  The line
and motion branches and the collision/abandoned phases emit only
line_cross, sudden_motion, track_stop, near_collision and
abandoned_object events and never touch the region state, so the
roi_enter/roi_exit projection discards them. -/
def processFrameDetections (roi : RoiSettings) (regions : List (String × RoiRegion))
    (tsMs : Int) :
    List Detection → List Int → List (Int × TrackEventState) →
    List (Int × TrackEventState) × List EventEntry
  | [], _, tracks => (tracks, [])
  | det :: rest, seen, tracks =>
      match det.trackId with
      | none => processFrameDetections roi regions tsMs rest seen tracks
      | some tid =>
          if tid ∈ seen then
            processFrameDetections roi regions tsMs rest seen tracks
          else
            let st := (tracks.lookup tid).getD ⟨[], tsMs⟩
            let r := appendRegionEventsAll roi tid tsMs det.point regions
              st.regionStates
            let r2 := processFrameDetections roi regions tsMs rest (tid :: seen)
              (assocSet tracks tid ⟨r.1, tsMs⟩)
            (r2.1, r.2 ++ r2.2)

/-- events.py _evict_stale_track_state (lines 283-291): delete every
track state whose last_seen_ts_ms is more than TRACK_STATE_TTL_MS old. -/
def evictStaleTrackState (nowTsMs : Int) :
    List (Int × TrackEventState) → List (Int × TrackEventState)
  | [] => []
  | (k, st) :: rest =>
      if trackStateTtlMs < nowTsMs - st.lastSeenTsMs then
        evictStaleTrackState nowTsMs rest
      else
        (k, st) :: evictStaleTrackState nowTsMs rest

/-- True when _evict_stale_track_state at now_ts_ms deletes tid. -/
def trackEvictedAt (nowTsMs : Int) (tracks : List (Int × TrackEventState))
    (tid : Int) : Bool :=
  match tracks.lookup tid with
  | none => false
  | some st => decide (trackStateTtlMs < nowTsMs - st.lastSeenTsMs)

/-- DetectionEventEngine.process over a frame sequence, roi path: the
detections loop, then _evict_stale_track_state at the frame timestamp
(events.py lines 134-135), events concatenated in frame order. -/
def runDetectionEngine (roi : RoiSettings) (regions : List (String × RoiRegion)) :
    List (Int × TrackEventState) → List DetectionsFrame →
    List (Int × TrackEventState) × List EventEntry
  | tracks, [] => (tracks, [])
  | tracks, f :: rest =>
      let r := processFrameDetections roi regions f.tsMs f.detections [] tracks
      let r2 := runDetectionEngine roi regions (evictStaleTrackState f.tsMs r.1) rest
      (r2.1, r.2 ++ r2.2)

/-- True when some frame's eviction pass of the run deletes track tid's
state. -/
def runDetectionEngineEvicts (roi : RoiSettings) (regions : List (String × RoiRegion))
    (tid : Int) : List (Int × TrackEventState) → List DetectionsFrame → Bool
  | _, [] => false
  | tracks, f :: rest =>
      trackEvictedAt f.tsMs
          (processFrameDetections roi regions f.tsMs f.detections [] tracks).1 tid ||
        runDetectionEngineEvicts roi regions tid
          (evictStaleTrackState f.tsMs
            (processFrameDetections roi regions f.tsMs f.detections [] tracks).1) rest

/-- The roi_enter/roi_exit subsequence of an event list restricted to one
track and one region name (true = enter, false = exit). -/
def enterExitProjFor (tid : Int) (rn : String) (events : List EventEntry) : List Bool :=
  events.filterMap (fun e =>
    if e.trackId = some tid ∧ e.data = EventData.roi rn then
      if e.name = "roi_enter" then some true
      else if e.name = "roi_exit" then some false
      else none
    else none)

/-- The committed-inside flag the engine holds for (tid, rn), with dict
defaults when the track state or the region slice is absent. -/
def committedFor (tracks : List (Int × TrackEventState)) (tid : Int)
    (rn : String) : Bool :=
  match tracks.lookup tid with
  | none => false
  | some st =>
      ((st.regionStates.lookup rn).getD initialRegionTrackState).committedInside

/-- Alternation consumer: each marker must match the expected flag, which
then flips; returns the final expectation, none on a violation. -/
def altConsume : Bool → List Bool → Option Bool
  | e, [] => some e
  | e, x :: xs => if x == e then altConsume (!e) xs else none

/-! ## Motion engine (motion.py). -/

/-- motion.py MotionSettings (history_frames >= 2 is enforced at load). -/
structure MotionSettings where
  enabled : Bool
  historyFrames : Nat
  suddenMotionSpeedPxS : ℚ
  stopSpeedPxS : ℚ
  stopDurationMs : Int
  eventCooldownMs : Int
deriving DecidableEq

/-- motion.py MotionSample. -/
structure MotionSample where
  tsMs : Int
  x : ℚ
  y : ℚ
deriving DecidableEq

/-- motion.py MotionTrackState; the last_event_ts_ms dict becomes an
association list keyed by event name. -/
structure MotionTrackState where
  history : List MotionSample
  stopStartTsMs : Option Int
  stopEmitted : Bool
  lastEventTsMs : List (String × Int)
  lastSeenTsMs : Int
deriving DecidableEq

/-- Fresh MotionTrackState (deque empty, nothing emitted). -/
def initialMotionTrackState (tsMs : Int) : MotionTrackState :=
  ⟨[], none, false, [], tsMs⟩

/-- deque(maxlen=n).append: drop from the left when full. -/
def boundedAppend (maxLen : Nat) (history : List MotionSample)
    (sample : MotionSample) : List MotionSample :=
  let h := history ++ [sample]
  if maxLen < h.length then h.drop (h.length - maxLen) else h

/-- motion.py _speed_px_s: none when the time delta is <= 0, else pixel
distance over seconds.  The euclidean distance math.hypot is external, so
it is a parameter applied to the coordinate deltas. -/
def speedPxS (hypot : ℚ → ℚ → ℚ) (a b : MotionSample) : Option ℚ :=
  let dtMs := b.tsMs - a.tsMs
  if dtMs ≤ 0 then none
  else some (hypot (b.x - a.x) (b.y - a.y) / ((dtMs : ℚ) / 1000))

/-- motion.py _latest_speed_px_s: speed of the two most recent samples. -/
def latestSpeedPxS (hypot : ℚ → ℚ → ℚ) (history : List MotionSample) : Option ℚ :=
  match history.reverse with
  | b :: a :: _ => speedPxS hypot a b
  | _ => none

/-- motion.py _previous_speed_px_s: speed of the two samples before the
most recent one. -/
def previousSpeedPxS (hypot : ℚ → ℚ → ℚ) (history : List MotionSample) : Option ℚ :=
  match history.reverse with
  | _ :: b :: a :: _ => speedPxS hypot a b
  | _ => none

/-- motion.py MotionEventEngine._can_emit: per-event-name-per-track
cooldown. -/
def canEmitMotion (cfg : MotionSettings) (s : MotionTrackState)
    (eventName : String) (tsMs : Int) : Bool :=
  if cfg.eventCooldownMs ≤ 0 then true
  else
    match s.lastEventTsMs.lookup eventName with
    | none => true
    | some last => if cfg.eventCooldownMs ≤ tsMs - last then true else false

/-- motion.py MotionEventEngine.process_sample for one track: append the
sample to the bounded history, then derive sudden_motion and track_stop
events from the two latest speeds. -/
def processMotionSample (cfg : MotionSettings) (hypot : ℚ → ℚ → ℚ) (trackId : Int)
    (tsMs : Int) (point : Point) (s : MotionTrackState) :
    MotionTrackState × List EventEntry :=
  if cfg.enabled = false then (s, [])
  else
    let s0 := { s with lastSeenTsMs := tsMs,
                       history := boundedAppend cfg.historyFrames s.history ⟨tsMs, point.1, point.2⟩ }
    match latestSpeedPxS hypot s0.history with
    | none => (s0, [])
    | some speedNow =>
        let speedDelta := match previousSpeedPxS hypot s0.history with
          | some speedPrev => |speedNow - speedPrev|
          | none => 0
        let thr := cfg.suddenMotionSpeedPxS
        let r1 :=
          if (thr ≤ speedNow ∨ thr ≤ speedDelta) ∧ canEmitMotion cfg s0 "sudden_motion" tsMs = true then
            ({ s0 with lastEventTsMs := assocSet s0.lastEventTsMs "sudden_motion" tsMs },
             [⟨"sudden_motion", tsMs, "medium", some trackId, EventData.suddenMotion speedNow⟩])
          else (s0, [])
        let s1 := r1.1
        if speedNow ≤ cfg.stopSpeedPxS then
          let stopStart := match s1.stopStartTsMs with
            | some v => v
            | none => tsMs
          let s2 := { s1 with stopStartTsMs := some stopStart }
          let stoppedMs := max (tsMs - stopStart) 0
          if s2.stopEmitted = false ∧ cfg.stopDurationMs ≤ stoppedMs
              ∧ canEmitMotion cfg s2 "track_stop" tsMs = true then
            ({ s2 with stopEmitted := true,
                       lastEventTsMs := assocSet s2.lastEventTsMs "track_stop" tsMs },
             r1.2 ++ [⟨"track_stop", tsMs, "low", some trackId, EventData.trackStop stoppedMs⟩])
          else (s2, r1.2)
        else
          ({ s1 with stopStartTsMs := none, stopEmitted := false }, r1.2)

/-! ## Collision engine (collision.py). -/

/-- collision.py CollisionSettings; the pairs set becomes a list of
canonical pairs. -/
structure CollisionSettings where
  enabled : Bool
  pairs : List (String × String)
  distancePx : ℚ
  closingSpeedPxS : ℚ
  pairCooldownMs : Int
deriving DecidableEq

/-- collision.py CollisionSample. -/
structure CollisionSample where
  trackId : Int
  className : String
  point : Point
deriving DecidableEq

/-- collision.py PairState. -/
structure PairState where
  lastDistancePx : Option ℚ
  lastTsMs : Option Int
  lastEventTsMs : Option Int
  lastSeenTsMs : Int
deriving DecidableEq

/-- collision.py _canonical_class_pair: lexicographically sorted names. -/
def canonicalClassPair (aClass bClass : String) : String × String :=
  if aClass ≤ bClass then (aClass, bClass) else (bClass, aClass)

/-- collision.py _pair_key: sorted track ids. -/
def pairKey (aTrackId bTrackId : Int) : Int × Int :=
  if aTrackId ≤ bTrackId then (aTrackId, bTrackId) else (bTrackId, aTrackId)

/-- collision.py CollisionEventEngine._is_eligible_pair. -/
def isEligiblePair (cfg : CollisionSettings) (aClass bClass : String) : Bool :=
  canonicalClassPair aClass.trim.toLower bClass.trim.toLower ∈ cfg.pairs

/-- collision.py CollisionEventEngine._ordered_samples: order by track id. -/
def orderedSamples (a b : CollisionSample) : CollisionSample × CollisionSample :=
  if a.trackId ≤ b.trackId then (a, b) else (b, a)

/-- collision.py CollisionEventEngine._can_emit: per-pair cooldown. -/
def canEmitCollision (cfg : CollisionSettings) (s : PairState) (tsMs : Int) : Bool :=
  if cfg.pairCooldownMs ≤ 0 then true
  else
    match s.lastEventTsMs with
    | none => true
    | some last => if cfg.pairCooldownMs ≤ tsMs - last then true else false

/-- The body of the pair loop of collision.py process_samples (lines
213-246) for one ordered eligible pair of samples: compute distance and
closing speed from the pair's prior recorded distance, emit when every
condition holds, and always update last_distance_px / last_ts_ms. -/
def processPairObservation (cfg : CollisionSettings) (dist : Point → Point → ℚ)
    (tsMs : Int) (sampleA sampleB : CollisionSample) (state : PairState) :
    PairState × List EventEntry :=
  let state0 := { state with lastSeenTsMs := tsMs }
  let distancePx := dist sampleA.point sampleB.point
  let closingSpeedPxS : ℚ :=
    match state0.lastDistancePx, state0.lastTsMs with
    | some lastDistance, some lastTs =>
        let dtMs := tsMs - lastTs
        if 0 < dtMs then (lastDistance - distancePx) / ((dtMs : ℚ) / 1000) else 0
    | _, _ => 0
  if distancePx ≤ cfg.distancePx ∧ cfg.closingSpeedPxS ≤ closingSpeedPxS
      ∧ canEmitCollision cfg state0 tsMs = true then
    ({ state0 with lastEventTsMs := some tsMs, lastDistancePx := some distancePx,
                   lastTsMs := some tsMs },
     [⟨"near_collision", tsMs, "high", none,
        EventData.nearCollision sampleA.trackId sampleB.trackId
          sampleA.className sampleB.className distancePx closingSpeedPxS⟩])
  else
    ({ state0 with lastDistancePx := some distancePx, lastTsMs := some tsMs }, [])

/-- Per-pair state map of the collision engine. -/
abbrev PairStateMap := List ((Int × Int) × PairState)

/-- Inner loop of collision.py process_samples: pair the first sample with
each later sample, skipping equal track ids and unconfigured class pairs;
a missing pair state is created as PairState(last_seen_ts_ms=ts). -/
def collisionInnerLoop (cfg : CollisionSettings) (dist : Point → Point → ℚ)
    (tsMs : Int) (firstSample : CollisionSample) :
    List CollisionSample → PairStateMap → PairStateMap × List EventEntry
  | [], states => (states, [])
  | secondSample :: more, states =>
      if firstSample.trackId = secondSample.trackId then
        collisionInnerLoop cfg dist tsMs firstSample more states
      else if isEligiblePair cfg firstSample.className secondSample.className = false then
        collisionInnerLoop cfg dist tsMs firstSample more states
      else
        let ordered := orderedSamples firstSample secondSample
        let key := pairKey ordered.1.trackId ordered.2.trackId
        let state := (states.lookup key).getD ⟨none, none, none, tsMs⟩
        let r := processPairObservation cfg dist tsMs ordered.1 ordered.2 state
        let rest := collisionInnerLoop cfg dist tsMs firstSample more (assocSet states key r.1)
        (rest.1, r.2 ++ rest.2)

/-- Outer loop of collision.py process_samples. -/
def processCollisionSamples (cfg : CollisionSettings) (dist : Point → Point → ℚ)
    (tsMs : Int) : List CollisionSample → PairStateMap → PairStateMap × List EventEntry
  | [], states => (states, [])
  | sample :: more, states =>
      let r := collisionInnerLoop cfg dist tsMs sample more states
      let rest := processCollisionSamples cfg dist tsMs more r.1
      (rest.1, r.2 ++ rest.2)

/-- collision.py CollisionEventEngine.process_samples: nothing when the
engine is disabled, else the nested pair loops. -/
def collisionProcessSamples (cfg : CollisionSettings) (dist : Point → Point → ℚ)
    (tsMs : Int) (samples : List CollisionSample) (states : PairStateMap) :
    PairStateMap × List EventEntry :=
  if cfg.enabled = false then (states, [])
  else processCollisionSamples cfg dist tsMs samples states

/-! ## Abandoned-object engine (abandoned.py). -/

/-- abandoned.py AbandonedSettings. -/
structure AbandonedSettings where
  enabled : Bool
  objectClasses : List String
  associateMaxDistancePx : ℚ
  associateMinMs : Int
  abandonDelayMs : Int
  stationaryMaxMovePx : Option ℚ
  roi : Option String
  eventCooldownMs : Int
deriving DecidableEq

/-- abandoned.py AbandonedSample. -/
structure AbandonedSample where
  trackId : Int
  className : String
  point : Point
deriving DecidableEq

/-- abandoned.py ObjectTrackState. -/
structure ObjectTrackState where
  className : String
  lastSeenTsMs : Int
  lastPoint : Option Point
  associationCandidatePersonId : Option Int
  associationCandidateSinceMs : Option Int
  associatedPersonId : Option Int
  associatedSinceMs : Option Int
  abandonStartedTsMs : Option Int
  abandonPersonId : Option Int
  abandonReferencePoint : Option Point
  abandonedEmitted : Bool
  lastEventTsMs : Option Int
deriving DecidableEq

/-- ObjectTrackState(class_name=...) with dataclass defaults. -/
def freshObjectTrackState (className : String) : ObjectTrackState :=
  ⟨className, 0, none, none, none, none, none, none, none, none, false, none⟩

/-- abandoned.py AbandonedEventEngine._is_candidate_object. -/
def isCandidateObject (cfg : AbandonedSettings) (sample : AbandonedSample) : Bool :=
  sample.className.trim.toLower ∈ cfg.objectClasses

/-- abandoned.py AbandonedEventEngine._is_inside_configured_roi. -/
def isInsideConfiguredRoi (cfg : AbandonedSettings) (regions : List (String × RoiRegion))
    (sample : AbandonedSample) : Bool :=
  match cfg.roi with
  | none => true
  | some roiName =>
      match regions.lookup roiName with
      | none => false
      | some region => pointInRegion sample.point region

/-- abandoned.py AbandonedEventEngine._find_nearest_person: nearest
distinct person sample by centroid distance (first wins ties). -/
def findNearestPerson (dist : Point → Point → ℚ) (sample : AbandonedSample)
    (personSamples : List AbandonedSample) : Option Int × Option ℚ :=
  personSamples.foldl
    (fun acc personSample =>
      if personSample.trackId = sample.trackId then acc
      else
        let d := dist sample.point personSample.point
        match acc.2 with
        | none => (some personSample.trackId, some d)
        | some best => if d < best then (some personSample.trackId, some d) else acc)
    (none, none)

/-- abandoned.py AbandonedEventEngine._handle_association_candidate. -/
def handleAssociationCandidate (cfg : AbandonedSettings) (s : ObjectTrackState)
    (personTrackId : Int) (tsMs : Int) : ObjectTrackState :=
  if s.associatedPersonId = some personTrackId then s
  else if s.associationCandidatePersonId ≠ some personTrackId then
    { s with associationCandidatePersonId := some personTrackId,
             associationCandidateSinceMs := some tsMs }
  else
    match s.associationCandidateSinceMs with
    | none => { s with associationCandidateSinceMs := some tsMs }
    | some since =>
        if tsMs - since < cfg.associateMinMs then s
        else
          { s with associatedPersonId := some personTrackId,
                   associatedSinceMs := some since,
                   associationCandidatePersonId := none,
                   associationCandidateSinceMs := none,
                   abandonedEmitted := false }

/-- abandoned.py AbandonedEventEngine._reset_abandonment. -/
def resetAbandonment (s : ObjectTrackState) : ObjectTrackState :=
  { s with abandonStartedTsMs := none, abandonPersonId := none,
           abandonReferencePoint := none, abandonedEmitted := false }

/-- abandoned.py AbandonedEventEngine._can_emit. -/
def canEmitAbandoned (cfg : AbandonedSettings) (s : ObjectTrackState) (tsMs : Int) : Bool :=
  if cfg.eventCooldownMs ≤ 0 then true
  else
    match s.lastEventTsMs with
    | none => true
    | some last => if cfg.eventCooldownMs ≤ tsMs - last then true else false

/-- The no-person-in-range part of the sample loop of abandoned.py
process_samples (lines 259-302), applied to the state after the
association candidate has been cleared: enter Abandoning when an
association was committed, then stationarity check, abandon delay,
once-per-window flag and cooldown, then emission. -/
def abandonedNoPersonStep (cfg : AbandonedSettings) (dist : Point → Point → ℚ)
    (tsMs : Int) (sample : AbandonedSample) (s2 : ObjectTrackState) :
    ObjectTrackState × List EventEntry :=
  let s3 :=
    if s2.associatedPersonId.isSome ∧ s2.abandonStartedTsMs = none then
      { s2 with abandonStartedTsMs := some tsMs,
                abandonPersonId := s2.associatedPersonId,
                abandonReferencePoint := some sample.point }
    else s2
  let s4 := { s3 with associatedPersonId := none, associatedSinceMs := none }
  match s4.abandonStartedTsMs with
  | none => (s4, [])
  | some startedTs =>
      let movedTooFar : Bool :=
        match s4.abandonReferencePoint, cfg.stationaryMaxMovePx with
        | some referencePoint, some maxMove =>
            if maxMove < dist sample.point referencePoint then true else false
        | _, _ => false
      if movedTooFar then (resetAbandonment s4, [])
      else
        let abandonMs := max (tsMs - startedTs) 0
        if abandonMs < cfg.abandonDelayMs then (s4, [])
        else if s4.abandonedEmitted then (s4, [])
        else if canEmitAbandoned cfg s4 tsMs = false then (s4, [])
        else
          ({ s4 with abandonedEmitted := true, lastEventTsMs := some tsMs },
           [⟨"abandoned_object", tsMs, "high", some sample.trackId,
              EventData.abandonedObject sample.trackId s4.className
                s4.abandonPersonId cfg.roi abandonMs⟩])

/-- abandoned.py process_samples lines 235-242: fetch or create the
object's track state and record the observation. -/
def abandonedObservedState (tsMs : Int) (sample : AbandonedSample)
    (stOpt : Option ObjectTrackState) : ObjectTrackState :=
  let s0 := match stOpt with
    | some s => s
    | none => freshObjectTrackState sample.className.trim.toLower
  { s0 with className := sample.className.trim.toLower,
            lastSeenTsMs := tsMs, lastPoint := some sample.point }

/-- abandoned.py process_samples lines 256-257: the observed state with
the association candidate cleared (the no-person-in-range path). -/
def abandonedNoPersonState (tsMs : Int) (sample : AbandonedSample)
    (stOpt : Option ObjectTrackState) : ObjectTrackState :=
  { abandonedObservedState tsMs sample stOpt with
      associationCandidatePersonId := none, associationCandidateSinceMs := none }

/-- The body of the sample loop of abandoned.py process_samples (lines
227-302) for one object sample against the frame's person samples,
threading the optional per-track state (none = no entry in the engine's
dict; leaving the configured ROI pops the entry). -/
def processObjectSample (cfg : AbandonedSettings) (regions : List (String × RoiRegion))
    (dist : Point → Point → ℚ) (tsMs : Int) (sample : AbandonedSample)
    (personSamples : List AbandonedSample) (stOpt : Option ObjectTrackState) :
    Option ObjectTrackState × List EventEntry :=
  if isCandidateObject cfg sample = false then (stOpt, [])
  else if isInsideConfiguredRoi cfg regions sample = false then (none, [])
  else
    let s1 := abandonedObservedState tsMs sample stOpt
    let nearest := findNearestPerson dist sample personSamples
    let hasNearPerson : Bool :=
      match nearest.1, nearest.2 with
      | some _, some d => if d ≤ cfg.associateMaxDistancePx then true else false
      | _, _ => false
    match nearest.1, hasNearPerson with
    | some personId, true =>
        (some (resetAbandonment (handleAssociationCandidate cfg s1 personId tsMs)), [])
    | _, _ =>
        let r := abandonedNoPersonStep cfg dist tsMs sample
          (abandonedNoPersonState tsMs sample stOpt)
        (some r.1, r.2)

/-- One frame observation of a single watched object track: the frame
timestamp, the object sample and the frame's person samples. -/
structure AbandonedFrameInput where
  tsMs : Int
  sample : AbandonedSample
  personSamples : List AbandonedSample
deriving DecidableEq

/-- Run of the abandoned engine restricted to one object track, listing
the post-step state and the events of every step. -/
def runAbandonedSteps (cfg : AbandonedSettings) (regions : List (String × RoiRegion))
    (dist : Point → Point → ℚ) :
    Option ObjectTrackState → List AbandonedFrameInput →
    List (Option ObjectTrackState × List EventEntry)
  | _, [] => []
  | st, i :: rest =>
      let r := processObjectSample cfg regions dist i.tsMs i.sample i.personSamples st
      r :: runAbandonedSteps cfg regions dist r.1 rest

/-- Marker of one abandoned-engine step: true when the step emitted
abandoned_object, false when the post-step state has no open abandonment
window (no entry, or abandon_started_ts_ms is None), nothing otherwise. -/
def abandonedMarker (step : Option ObjectTrackState × List EventEntry) : Option Bool :=
  if step.2.any (fun e => e.name = "abandoned_object") then some true
  else
    match step.1 with
    | none => some false
    | some s => if s.abandonStartedTsMs = none then some false else none

/-! ## Insight coordinator (insights.py). -/

/-- insights.py BufferedFrame. -/
structure BufferedFrame where
  seq : Int
  frameId : String
  tsMs : Int
  mime : String
  imageBytes : List Nat
deriving DecidableEq

/-- insights.py InsightSettings, restricted to the fields the clip,
cooldown and surprise logic reads (agent url, asset paths and downsample
options only feed the external call and filesystem writes). -/
structure InsightSettings where
  enabled : Bool
  timeoutMs : Int
  maxFrames : Nat
  preFrames : Nat
  postFrames : Nat
  insightCooldownMs : Int
  surpriseEnabled : Bool
  surpriseThreshold : ℚ
  surpriseCooldownMs : Int
  surpriseWeights : List (String × ℚ)
deriving DecidableEq

/-- insights.py HARD_MAX_INSIGHT_FRAMES. -/
def hardMaxInsightFrames : Nat := 6

/-- insights.py load_insight_settings lines 600-602: max_frames is clamped
into [1, 6] and pre_frames / post_frames to at most max_frames - 1. -/
def clampInsightFrameCounts (rawMaxFrames rawPreFrames rawPostFrames : Nat) :
    Nat × Nat × Nat :=
  let maxFrames := max 1 (min rawMaxFrames hardMaxInsightFrames)
  (maxFrames, min rawPreFrames (maxFrames - 1), min rawPostFrames (maxFrames - 1))

/-- insights.py InsightBuffer._collect_pre_frames: the last pre_frames
buffered frames with seq strictly below the trigger seq, in arrival
order. -/
def collectPreFrames (cfg : InsightSettings) (frames : List BufferedFrame)
    (triggerSeq : Int) : List BufferedFrame :=
  if cfg.preFrames ≤ 0 then []
  else
    let candidates := frames.filter (fun f => f.seq < triggerSeq)
    candidates.drop (candidates.length - cfg.preFrames)

/-- insights.py InsightBuffer._collect_post_frames: the first limit
buffered frames with seq strictly above the trigger seq, in arrival
order. -/
def collectPostFrames (frames : List BufferedFrame) (triggerSeq : Int)
    (limit : Nat) : List BufferedFrame :=
  if limit ≤ 0 then []
  else (frames.filter (fun f => triggerSeq < f.seq)).take limit

/-- insights.py InsightBuffer._build_clip: pre-frames and the trigger come
from the buffer at call time, the post-frames from the buffer after the
bounded wait on later arrivals; the result is truncated to max_frames. -/
def buildClip (cfg : InsightSettings) (framesAtStart framesAfterWait : List BufferedFrame)
    (trigger : BufferedFrame) : List BufferedFrame :=
  let selectedPre := collectPreFrames cfg framesAtStart trigger.seq
  let selected := selectedPre ++ [trigger]
  let remainingCapacity := cfg.maxFrames - selected.length
  let postTarget := min cfg.postFrames remainingCapacity
  let postFrames := collectPostFrames framesAfterWait trigger.seq postTarget
  (selected ++ postFrames).take cfg.maxFrames

/-- insights.py InsightBuffer._find_trigger_frame: latest buffered frame
whose frame_id matches, else the most recent frame, none only on an
empty buffer. -/
def findTriggerFrame (frames : List BufferedFrame) (triggerFrameId : String) :
    Option BufferedFrame :=
  match frames.reverse.find? (fun f => f.frameId = triggerFrameId) with
  | some f => some f
  | none => if frames.isEmpty then none else frames.getLast?

/-- insights.py InsightBuffer._compute_surprise_score. -/
def computeSurpriseScore (cfg : InsightSettings) (events : List EventEntry) : ℚ :=
  events.foldl (fun score e => score + ((cfg.surpriseWeights.lookup e.name.toLower).getD 0)) 0

/-- insights.py InsightBuffer._is_insight_cooldown_active. -/
def isInsightCooldownActive (cfg : InsightSettings) (lastInsightTsMs : Option Int)
    (nowMs : Int) : Bool :=
  match lastInsightTsMs with
  | none => false
  | some last =>
      if cfg.insightCooldownMs ≤ 0 then false
      else if nowMs - last < cfg.insightCooldownMs then true else false

/-- insights.py InsightBuffer._is_surprise_cooldown_active. -/
def isSurpriseCooldownActive (cfg : InsightSettings) (lastSurpriseTriggerTsMs : Option Int)
    (nowMs : Int) : Bool :=
  match lastSurpriseTriggerTsMs with
  | none => false
  | some last =>
      if cfg.surpriseCooldownMs ≤ 0 then false
      else if nowMs - last < cfg.surpriseCooldownMs then true else false

/-- insights.py InsightBuffer.run_auto_insight up to the choice of the
trigger frame: the checks in source order; ok none is the silent no-insight
outcome, ok (some f) means an insight will be requested with trigger f. -/
def runAutoInsightDecision (cfg : InsightSettings) (frames : List BufferedFrame)
    (events : List EventEntry) (nowMs : Int)
    (lastInsightTsMs lastSurpriseTriggerTsMs : Option Int)
    (triggerFrameId : String) : Except String (Option BufferedFrame) :=
  if cfg.enabled = false then .error "INSIGHTS_DISABLED"
  else if cfg.surpriseEnabled = false then .ok none
  else if computeSurpriseScore cfg events < cfg.surpriseThreshold then .ok none
  else if isSurpriseCooldownActive cfg lastSurpriseTriggerTsMs nowMs then .ok none
  else if isInsightCooldownActive cfg lastInsightTsMs nowMs then .ok none
  else .ok (findTriggerFrame frames triggerFrameId)

/-- insights.py InsightBuffer.run_insight_test up to the external call:
enabled check, latest-frame trigger lookup (NO_TRIGGER_FRAME on an empty
buffer), cooldown enforcement (INSIGHT_COOLDOWN), and then the recording
of now as _last_insight_ts_ms, before the clip is built or the agent is
contacted. -/
def runInsightTestStart (cfg : InsightSettings) (frames : List BufferedFrame)
    (nowMs : Int) (lastInsightTsMs : Option Int) :
    Except String (Option Int × BufferedFrame) :=
  if cfg.enabled = false then .error "INSIGHTS_DISABLED"
  else
    match frames.getLast? with
    | none => .error "NO_TRIGGER_FRAME"
    | some trigger =>
        if isInsightCooldownActive cfg lastInsightTsMs nowMs then
          .error "INSIGHT_COOLDOWN"
        else .ok (some nowMs, trigger)

/-- A whole insight_test attempt: the synchronous part above followed by
the clip build and agent call, whose outcome (success or any InsightError
such as VISION_AGENT_TIMEOUT) is a parameter and does not touch
_last_insight_ts_ms.  Returns the resulting _last_insight_ts_ms and the
outcome surfaced to the client. -/
def runInsightTestAttempt (cfg : InsightSettings) (frames : List BufferedFrame)
    (nowMs : Int) (lastInsightTsMs : Option Int)
    (agentOutcome : Except String Unit) : Option Int × Except String Unit :=
  match runInsightTestStart cfg frames nowMs lastInsightTsMs with
  | .error e => (lastInsightTsMs, .error e)
  | .ok r => (r.1, agentOutcome)

/-! ## Helper lemmas. -/

/-- Under the latest policy no ingest step ever reports an error. -/
lemma ingestDecodedFrames_latest_errors (st : SchedulerState) (frames : List InferenceFrame) :
    ∀ e ∈ (ingestDecodedFrames true st frames).2, e = none := by
  induction frames generalizing st with
  | nil => simp [ingestDecodedFrames]
  | cons f fs ih =>
      intro e he
      simp only [ingestDecodedFrames, ingestDecodedFrame, if_pos] at he
      rcases List.mem_cons.mp he with h | h
      · exact h
      · exact ih _ e h

/-- Under the latest policy the slot ends holding the most recent frame
(or its old content when no frame arrived). -/
lemma ingestDecodedFrames_latest_pending' (st : SchedulerState) (frames : List InferenceFrame) :
    (ingestDecodedFrames true st frames).1.pendingFrame =
      (match frames.getLast? with
       | some f => some f
       | none => st.pendingFrame) := by
  induction frames generalizing st with
  | nil => simp [ingestDecodedFrames]
  | cons f fs ih =>
      cases fs with
      | nil => simp [ingestDecodedFrames, ingestDecodedFrame]
      | cons g gs =>
          rw [List.getLast?_cons_cons]
          simpa [ingestDecodedFrames, ingestDecodedFrame] using
            ih { st with pendingFrame := some f }

/-- Under the latest policy the slot ends holding the most recent frame. -/
lemma ingestDecodedFrames_latest_pending (st : SchedulerState) (frames : List InferenceFrame)
    (hne : frames ≠ []) :
    (ingestDecodedFrames true st frames).1.pendingFrame = some (frames.getLast hne) := by
  rw [ingestDecodedFrames_latest_pending' st frames, List.getLast?_eq_getLast frames hne]

/-! ## Claim theorems. -/

/-- C1: the claim quantifies over every connection with
tracking.busy_policy = "latest", but should_use_latest_pending_slot also
requires tracking.enabled, so with tracking disabled the drop policy
applies: a frame decoded while the worker is busy is answered with a BUSY
error and dropped instead of overwriting the pending slot. -/
theorem c1_latest_without_tracking_counterexample :
    shouldUseLatestPendingSlot ⟨false, BusyPolicy.latest⟩ = false ∧
    (ingestDecodedFrame (shouldUseLatestPendingSlot ⟨false, BusyPolicy.latest⟩)
        ⟨none, true⟩ ⟨"frame-1", 1, 1, []⟩).2 = some "BUSY" ∧
    (ingestDecodedFrame (shouldUseLatestPendingSlot ⟨false, BusyPolicy.latest⟩)
        ⟨none, true⟩ ⟨"frame-1", 1, 1, []⟩).1.pendingFrame = none := by
  decide

/-- C1 (amended): for every connection with tracking.enabled = true and
tracking.busy_policy = "latest", every validly decoded frame overwrites
the pending slot unconditionally, no BUSY error is emitted, and after any
burst of frames the slot holds the most recently submitted frame — it is
dropped only when a strictly newer frame supersedes it. -/
theorem c1_latest_slot_overwrites_unconditionally (config : TrackingSettings)
    (st : SchedulerState) (frame : InferenceFrame) (frames : List InferenceFrame)
    (henabled : config.enabled = true) (hlatest : config.busyPolicy = BusyPolicy.latest)
    (hne : frames ≠ []) :
    (ingestDecodedFrame (shouldUseLatestPendingSlot config) st frame).1.pendingFrame
        = some frame ∧
    (ingestDecodedFrame (shouldUseLatestPendingSlot config) st frame).2 = none ∧
    (∀ e ∈ (ingestDecodedFrames (shouldUseLatestPendingSlot config) st frames).2, e = none) ∧
    (ingestDecodedFrames (shouldUseLatestPendingSlot config) st frames).1.pendingFrame
        = some (frames.getLast hne) := by
  have huse : shouldUseLatestPendingSlot config = true := by
    simp [shouldUseLatestPendingSlot, henabled, hlatest]
  rw [huse]
  refine ⟨by simp [ingestDecodedFrame], by simp [ingestDecodedFrame],
    ingestDecodedFrames_latest_errors st frames,
    ingestDecodedFrames_latest_pending st frames hne⟩

/-- Witness for C1 (amended) at a concrete configuration and frame burst. -/
theorem c1_latest_slot_overwrites_unconditionally_witness :
    (ingestDecodedFrame (shouldUseLatestPendingSlot ⟨true, BusyPolicy.latest⟩)
        ⟨none, true⟩ ⟨"frame-1", 1, 1, []⟩).1.pendingFrame = some ⟨"frame-1", 1, 1, []⟩ ∧
    (ingestDecodedFrame (shouldUseLatestPendingSlot ⟨true, BusyPolicy.latest⟩)
        ⟨none, true⟩ ⟨"frame-1", 1, 1, []⟩).2 = none ∧
    (∀ e ∈ (ingestDecodedFrames (shouldUseLatestPendingSlot ⟨true, BusyPolicy.latest⟩)
        ⟨none, true⟩ [⟨"frame-1", 1, 1, []⟩, ⟨"frame-2", 1, 1, []⟩]).2, e = none) ∧
    (ingestDecodedFrames (shouldUseLatestPendingSlot ⟨true, BusyPolicy.latest⟩)
        ⟨none, true⟩ [⟨"frame-1", 1, 1, []⟩, ⟨"frame-2", 1, 1, []⟩]).1.pendingFrame
        = some ([⟨"frame-1", 1, 1, []⟩, ⟨"frame-2", 1, 1, []⟩].getLast (by simp)) :=
  c1_latest_slot_overwrites_unconditionally ⟨true, BusyPolicy.latest⟩ ⟨none, true⟩
    ⟨"frame-1", 1, 1, []⟩ [⟨"frame-1", 1, 1, []⟩, ⟨"frame-2", 1, 1, []⟩] rfl rfl (by simp)

/-- A successful decode carries an image payload of the declared length. -/
lemma decode_ok_image_length (jsonParse : List Nat → Option RawFrameMeta)
    (payload : List Nat) (env : BinaryFrameEnvelope)
    (h : decodeBinaryFrameEnvelope jsonParse payload = .ok env) :
    (env.imagePayload.length : Int) = env.meta.imageBytes := by
  simp only [decodeBinaryFrameEnvelope] at h
  split at h
  · simp at h
  · split at h
    · simp at h
    · split at h
      · simp at h
      · split at h
        · simp at h
        · split at h
          · simp at h
          · split at h
            · simp at h
            · rename_i hlen
              rw [Except.ok.injEq] at h
              rw [← h]
              simpa using hlen

/-- C2: decode_binary_frame_envelope fails — and the scheduler then
answers with an INVALID_FRAME_BINARY error while later payloads are still
processed — exactly when the payload is shorter than 4 bytes, the declared
big-endian metadata length L is 0, L exceeds the payload length minus 4,
the metadata bytes are not UTF-8 JSON, the metadata violates the
frame_binary schema, or the trailing image length differs from the
declared image_bytes; on success the image payload has exactly
image_bytes bytes. -/
theorem c2_decode_binary_frame_envelope_errors
    (jsonParse : List Nat → Option RawFrameMeta) (payload : List Nat) :
    (decodeFailed (decodeBinaryFrameEnvelope jsonParse payload) = true ↔
      (payload.length < 4 ∨
       bytesToNatBE (payload.take 4) = 0 ∨
       payload.length - 4 < bytesToNatBE (payload.take 4) ∨
       jsonParse ((payload.drop 4).take (bytesToNatBE (payload.take 4))) = none ∨
       (∃ rawMeta, jsonParse ((payload.drop 4).take (bytesToNatBE (payload.take 4)))
            = some rawMeta ∧ modelValidateFrameBinaryMeta rawMeta = none) ∨
       (∃ rawMeta meta,
          jsonParse ((payload.drop 4).take (bytesToNatBE (payload.take 4))) = some rawMeta ∧
          modelValidateFrameBinaryMeta rawMeta = some meta ∧
          ((payload.drop (4 + bytesToNatBE (payload.take 4))).length : Int)
            ≠ meta.imageBytes))) ∧
    (∀ env, decodeBinaryFrameEnvelope jsonParse payload = .ok env →
      (env.imagePayload.length : Int) = env.meta.imageBytes ∧
      handleBinaryPayload jsonParse payload = (none, some env)) ∧
    (decodeFailed (decodeBinaryFrameEnvelope jsonParse payload) = true →
      ∀ rest, handleBinaryPayloads jsonParse (payload :: rest) =
        (some "INVALID_FRAME_BINARY", none) :: handleBinaryPayloads jsonParse rest) := by
  refine ⟨?_, ?_, ?_⟩
  · simp only [decodeBinaryFrameEnvelope]
    by_cases h1 : payload.length < 4
    · simp [h1, decodeFailed]
    · rw [if_neg h1]
      by_cases h2 : bytesToNatBE (payload.take 4) ≤ 0
      · have h2' : bytesToNatBE (payload.take 4) = 0 := Nat.le_zero.mp h2
        simp [h2, h2', decodeFailed]
      · rw [if_neg h2]
        have h2' : bytesToNatBE (payload.take 4) ≠ 0 := by omega
        by_cases h3 : payload.length < 4 + bytesToNatBE (payload.take 4)
        · have h3' : payload.length - 4 < bytesToNatBE (payload.take 4) := by omega
          simp [h3, h3', decodeFailed, h1, h2']
        · have h3' : ¬ payload.length - 4 < bytesToNatBE (payload.take 4) := by omega
          rw [if_neg h3]
          cases hjson : jsonParse ((payload.drop 4).take (bytesToNatBE (payload.take 4))) with
          | none => simp [decodeFailed, h1, h2', h3', hjson]
          | some rawMeta =>
              cases hval : modelValidateFrameBinaryMeta rawMeta with
              | none => simp [decodeFailed, h1, h2', h3', hjson, hval]
              | some meta =>
                  by_cases h4 :
                      ((payload.length - (4 + bytesToNatBE (payload.take 4)) : Nat) : Int)
                        = meta.imageBytes
                  · simp [decodeFailed, h1, h2', h3', hjson, hval, h4]
                  · simp [decodeFailed, h1, h2', h3', hjson, hval, h4]
  · intro env henv
    refine ⟨decode_ok_image_length jsonParse payload env henv, ?_⟩
    unfold handleBinaryPayload
    rw [henv]
  · intro hfail rest
    cases hdec : decodeBinaryFrameEnvelope jsonParse payload with
    | error e => simp [handleBinaryPayloads, handleBinaryPayload, hdec]
    | ok env => rw [hdec] at hfail; simp [decodeFailed] at hfail

/-! ### Region engine trace lemmas. -/

lemma enterExitProj_append (a b : List EventEntry) :
    enterExitProj (a ++ b) = enterExitProj a ++ enterExitProj b := by
  simp [enterExitProj]

lemma enterExitProj_enter (ts : Int) (tid : Int) (rn : String) :
    enterExitProj [⟨"roi_enter", ts, "low", some tid, EventData.roi rn⟩] = [true] := by
  simp [enterExitProj]

lemma enterExitProj_exit (ts : Int) (tid : Int) (rn : String) :
    enterExitProj [⟨"roi_exit", ts, "low", some tid, EventData.roi rn⟩] = [false] := rfl

lemma enterExitProj_dwell (ts : Int) (tid : Int) (rn : String) (dms : Int) :
    enterExitProj [⟨"roi_dwell", ts, "medium", some tid, EventData.roiDwell rn dms⟩] = [] := rfl

/-- The transition phase emits no enter/exit event and keeps the committed
flag, or emits exactly one transition event matching a flip of the
committed flag. -/
lemma regionTransitionStep_enterExit (minT : Int) (rn : String) (tid ts : Int)
    (insideNow : Bool) (s : RegionTrackState) :
    (enterExitProj (regionTransitionStep minT rn tid ts insideNow s).2 = [] ∧
       (regionTransitionStep minT rn tid ts insideNow s).1.committedInside = s.committedInside) ∨
    (enterExitProj (regionTransitionStep minT rn tid ts insideNow s).2 = [true] ∧
       s.committedInside = false ∧
       (regionTransitionStep minT rn tid ts insideNow s).1.committedInside = true) ∨
    (enterExitProj (regionTransitionStep minT rn tid ts insideNow s).2 = [false] ∧
       s.committedInside = true ∧
       (regionTransitionStep minT rn tid ts insideNow s).1.committedInside = false) := by
  unfold regionTransitionStep
  by_cases hmin : minT ≤ 0
  · rw [if_pos hmin]
    cases hi : insideNow <;> cases hc : s.committedInside <;>
      simp [enterExitProj_enter, enterExitProj_exit, enterExitProj, hc]
  · rw [if_neg hmin]
    by_cases hsame : insideNow = s.committedInside
    · rw [if_pos hsame]
      left
      exact ⟨rfl, rfl⟩
    · rw [if_neg hsame]
      by_cases hpend : s.pendingInside ≠ some insideNow
      · rw [if_pos hpend]
        left
        exact ⟨rfl, rfl⟩
      · rw [if_neg hpend]
        cases hsince : s.pendingSinceTsMs with
        | none => left; exact ⟨rfl, rfl⟩
        | some since =>
            dsimp only
            by_cases helapsed : minT ≤ max (ts - since) 0
            · rw [if_pos helapsed]
              cases hi : insideNow
              · rw [if_neg (by simp)]
                right; right
                refine ⟨enterExitProj_exit ts tid rn, ?_, rfl⟩
                rw [hi] at hsame
                cases hcb : s.committedInside
                · rw [hcb] at hsame
                  exact absurd rfl hsame
                · rfl
              · rw [if_pos rfl]
                right; left
                refine ⟨enterExitProj_enter ts tid rn, ?_, rfl⟩
                rw [hi] at hsame
                cases hcb : s.committedInside
                · rfl
                · rw [hcb] at hsame
                  exact absurd rfl hsame
            · rw [if_neg helapsed]
              left
              exact ⟨rfl, rfl⟩

/-- The dwell phase never emits an enter/exit event and keeps the
committed flag. -/
lemma regionDwellStep_enterExit (thr : Int) (rn : String) (tid ts : Int)
    (s : RegionTrackState) :
    enterExitProj (regionDwellStep thr rn tid ts s).2 = [] ∧
    (regionDwellStep thr rn tid ts s).1.committedInside = s.committedInside := by
  unfold regionDwellStep
  by_cases hc : s.committedInside = true
  · rw [if_pos hc]
    cases henter : s.enterTsMs <;> dsimp only <;> split_ifs <;> exact ⟨rfl, rfl⟩
  · rw [if_neg hc]
    exact ⟨rfl, rfl⟩

/-- One full region observation emits no enter/exit event and keeps the
committed flag, or emits exactly one transition event matching a flip of
the committed flag. -/
lemma appendRegionEventsCore_enterExit (minT thr : Int) (rn : String) (tid ts : Int)
    (insideNow : Bool) (s : RegionTrackState) :
    (enterExitProj (appendRegionEventsCore minT thr rn tid ts insideNow s).2 = [] ∧
       (appendRegionEventsCore minT thr rn tid ts insideNow s).1.committedInside
         = s.committedInside) ∨
    (enterExitProj (appendRegionEventsCore minT thr rn tid ts insideNow s).2 = [true] ∧
       s.committedInside = false ∧
       (appendRegionEventsCore minT thr rn tid ts insideNow s).1.committedInside = true) ∨
    (enterExitProj (appendRegionEventsCore minT thr rn tid ts insideNow s).2 = [false] ∧
       s.committedInside = true ∧
       (appendRegionEventsCore minT thr rn tid ts insideNow s).1.committedInside = false) := by
  unfold appendRegionEventsCore
  obtain ⟨hd1, hd2⟩ :=
    regionDwellStep_enterExit thr rn tid ts (regionTransitionStep minT rn tid ts insideNow s).1
  rcases regionTransitionStep_enterExit minT rn tid ts insideNow s with
      ⟨h1, h2⟩ | ⟨h1, h2, h3⟩ | ⟨h1, h2, h3⟩
  · left
    rw [enterExitProj_append, h1, hd1, hd2, h2]
    exact ⟨rfl, rfl⟩
  · right; left
    rw [enterExitProj_append, h1, hd1, hd2, h3]
    exact ⟨rfl, h2, rfl⟩
  · right; right
    rw [enterExitProj_append, h1, hd1, hd2, h3]
    exact ⟨rfl, h2, rfl⟩

/-- From any state, the enter/exit projection of a run alternates starting
opposite to the current committed flag. -/
lemma runRegionEngine_alternatesFrom (roi : RoiSettings) (rn : String) (rg : RoiRegion)
    (tid : Int) (s : RegionTrackState) (inputs : List (Int × Point)) :
    alternatesFrom (!s.committedInside)
      (enterExitProj (runRegionEngine roi rn rg tid s inputs).2) = true := by
  induction inputs generalizing s with
  | nil => simp [runRegionEngine, enterExitProj, alternatesFrom]
  | cons i rest ih =>
      obtain ⟨ts, pt⟩ := i
      simp only [runRegionEngine, appendRegionEvents]
      rw [enterExitProj_append]
      rcases appendRegionEventsCore_enterExit roi.transitionMinMs
          (roi.dwellThresholdMsForRegion rn) rn tid ts (pointInRegion pt rg) s with
          ⟨h1, h2⟩ | ⟨h1, h2, h3⟩ | ⟨h1, h2, h3⟩
      · rw [h1]
        have := ih (appendRegionEventsCore roi.transitionMinMs
          (roi.dwellThresholdMsForRegion rn) rn tid ts (pointInRegion pt rg) s).1
        rw [h2] at this
        simpa using this
      · rw [h1, h2]
        have := ih (appendRegionEventsCore roi.transitionMinMs
          (roi.dwellThresholdMsForRegion rn) rn tid ts (pointInRegion pt rg) s).1
        rw [h3] at this
        simpa [alternatesFrom] using this
      · rw [h1, h2]
        have := ih (appendRegionEventsCore roi.transitionMinMs
          (roi.dwellThresholdMsForRegion rn) rn tid ts (pointInRegion pt rg) s).1
        rw [h3] at this
        simpa [alternatesFrom] using this

/-! ### Full-engine alternation lemmas (TTL eviction, events.py process). -/

lemma alternatesFrom_iff_altConsume (e : Bool) (l : List Bool) :
    alternatesFrom e l = (altConsume e l).isSome := by
  induction l generalizing e with
  | nil => rfl
  | cons x xs ih =>
      cases h : (x == e) <;> simp [alternatesFrom, altConsume, h, ih]

lemma altConsume_append (e : Bool) (a b : List Bool) :
    altConsume e (a ++ b) = (altConsume e a).bind (fun e2 => altConsume e2 b) := by
  induction a generalizing e with
  | nil => rfl
  | cons x xs ih =>
      cases h : (x == e) <;> simp [altConsume, h, ih]

lemma lookup_assocSet_self {α β : Type} [DecidableEq α] [BEq α] [LawfulBEq α]
    (l : List (α × β)) (k : α) (v : β) :
    (assocSet l k v).lookup k = some v := by
  induction l with
  | nil => simp [assocSet, List.lookup]
  | cons hd rest ih =>
      obtain ⟨k', v'⟩ := hd
      by_cases hk : k' = k
      · subst hk
        simp [assocSet, List.lookup]
      · have hb : (k == k') = false := by
          cases hh : (k == k')
          · rfl
          · exact absurd (eq_of_beq hh).symm hk
        simp [assocSet, hk, List.lookup, hb, ih]

lemma lookup_assocSet_ne {α β : Type} [DecidableEq α] [BEq α] [LawfulBEq α]
    (l : List (α × β)) (k k' : α) (v : β) (h : k' ≠ k) :
    (assocSet l k v).lookup k' = l.lookup k' := by
  have hb : (k' == k) = false := by
    cases hh : (k' == k)
    · rfl
    · exact absurd (eq_of_beq hh) h
  induction l with
  | nil => simp [assocSet, List.lookup, hb]
  | cons hd rest ih =>
      obtain ⟨k0, v0⟩ := hd
      by_cases hk : k0 = k
      · subst hk
        simp [assocSet, List.lookup, hb]
      · cases hh : (k' == k0)
        · simp [assocSet, hk, List.lookup, hh, ih]
        · simp [assocSet, hk, List.lookup, hh]

/-- Raw transition classification: no event with the committed flag kept,
or exactly the roi_enter / roi_exit literal with the matching flip. -/
lemma regionTransitionStep_rawEvents (minT : Int) (rn : String) (tid ts : Int)
    (insideNow : Bool) (s : RegionTrackState) :
    ((regionTransitionStep minT rn tid ts insideNow s).2 = [] ∧
       (regionTransitionStep minT rn tid ts insideNow s).1.committedInside
         = s.committedInside) ∨
    ((regionTransitionStep minT rn tid ts insideNow s).2
         = [⟨"roi_enter", ts, "low", some tid, EventData.roi rn⟩] ∧
       s.committedInside = false ∧
       (regionTransitionStep minT rn tid ts insideNow s).1.committedInside = true) ∨
    ((regionTransitionStep minT rn tid ts insideNow s).2
         = [⟨"roi_exit", ts, "low", some tid, EventData.roi rn⟩] ∧
       s.committedInside = true ∧
       (regionTransitionStep minT rn tid ts insideNow s).1.committedInside = false) := by
  unfold regionTransitionStep
  by_cases hmin : minT ≤ 0
  · rw [if_pos hmin]
    cases hi : insideNow <;> cases hc : s.committedInside <;> simp [hc]
  · rw [if_neg hmin]
    by_cases hsame : insideNow = s.committedInside
    · rw [if_pos hsame]
      left
      exact ⟨rfl, rfl⟩
    · rw [if_neg hsame]
      by_cases hpend : s.pendingInside ≠ some insideNow
      · rw [if_pos hpend]
        left
        exact ⟨rfl, rfl⟩
      · rw [if_neg hpend]
        cases hsince : s.pendingSinceTsMs with
        | none => left; exact ⟨rfl, rfl⟩
        | some since =>
            dsimp only
            by_cases helapsed : minT ≤ max (ts - since) 0
            · rw [if_pos helapsed]
              cases hi : insideNow
              · rw [if_neg (by simp)]
                right; right
                refine ⟨rfl, ?_, rfl⟩
                rw [hi] at hsame
                cases hcb : s.committedInside
                · rw [hcb] at hsame
                  exact absurd rfl hsame
                · rfl
              · rw [if_pos rfl]
                right; left
                refine ⟨rfl, ?_, rfl⟩
                rw [hi] at hsame
                cases hcb : s.committedInside
                · rfl
                · rw [hcb] at hsame
                  exact absurd rfl hsame
            · rw [if_neg helapsed]
              left
              exact ⟨rfl, rfl⟩

/-- Raw dwell classification: no event or the roi_dwell literal, with the
committed flag kept either way. -/
lemma regionDwellStep_rawEvents (thr : Int) (rn : String) (tid ts : Int)
    (s : RegionTrackState) :
    ((regionDwellStep thr rn tid ts s).2 = [] ∨
       ∃ dms, (regionDwellStep thr rn tid ts s).2
         = [⟨"roi_dwell", ts, "medium", some tid, EventData.roiDwell rn dms⟩]) ∧
    (regionDwellStep thr rn tid ts s).1.committedInside = s.committedInside := by
  unfold regionDwellStep
  by_cases hc : s.committedInside = true
  · rw [if_pos hc]
    cases henter : s.enterTsMs <;> dsimp only <;> split_ifs <;>
      first
        | exact ⟨Or.inl rfl, rfl⟩
        | exact ⟨Or.inr ⟨_, rfl⟩, rfl⟩
  · rw [if_neg hc]
    exact ⟨Or.inl rfl, rfl⟩

lemma enterExitProjFor_append (tid : Int) (rn : String) (a b : List EventEntry) :
    enterExitProjFor tid rn (a ++ b)
      = enterExitProjFor tid rn a ++ enterExitProjFor tid rn b := by
  simp [enterExitProjFor]

/-- One full region observation of the matching (track, region) key obeys
the alternation consumer: its enter/exit markers take the expectation from
the old committed flag to the new one. -/
lemma appendRegionEventsCore_altConsume (minT thr : Int) (rn : String) (tid ts : Int)
    (insideNow : Bool) (s : RegionTrackState) :
    altConsume (!s.committedInside)
        (enterExitProjFor tid rn
          (appendRegionEventsCore minT thr rn tid ts insideNow s).2)
      = some (!(appendRegionEventsCore minT thr rn tid ts insideNow s).1.committedInside) := by
  unfold appendRegionEventsCore
  obtain ⟨hd1, hd2⟩ := regionDwellStep_rawEvents thr rn tid ts
    (regionTransitionStep minT rn tid ts insideNow s).1
  rcases regionTransitionStep_rawEvents minT rn tid ts insideNow s with
      ⟨h1, h2⟩ | ⟨h1, h2, h3⟩ | ⟨h1, h2, h3⟩
  · rcases hd1 with hd | ⟨dms, hd⟩ <;>
      rw [enterExitProjFor_append, h1, hd] <;>
        simp [enterExitProjFor, altConsume, hd2, h2]
  · rcases hd1 with hd | ⟨dms, hd⟩ <;>
      rw [enterExitProjFor_append, h1, hd] <;>
        simp [enterExitProjFor, altConsume, hd2, h2, h3]
  · rcases hd1 with hd | ⟨dms, hd⟩ <;>
      rw [enterExitProjFor_append, h1, hd] <;>
        simp [enterExitProjFor, altConsume, hd2, h2, h3]

/-- A region observation of any other (track, region) key contributes
nothing to the projection. -/
lemma appendRegionEventsCore_projFor_other (minT thr : Int) (rn rn' : String)
    (tid tid' ts : Int) (insideNow : Bool) (s : RegionTrackState)
    (h : rn' ≠ rn ∨ tid' ≠ tid) :
    enterExitProjFor tid rn
      (appendRegionEventsCore minT thr rn' tid' ts insideNow s).2 = [] := by
  unfold appendRegionEventsCore
  obtain ⟨hd1, -⟩ := regionDwellStep_rawEvents thr rn' tid' ts
    (regionTransitionStep minT rn' tid' ts insideNow s).1
  rcases regionTransitionStep_rawEvents minT rn' tid' ts insideNow s with
      ⟨h1, -⟩ | ⟨h1, -, -⟩ | ⟨h1, -, -⟩ <;>
    rcases hd1 with hd | ⟨dms, hd⟩ <;>
      rw [enterExitProjFor_append, h1, hd] <;>
        simp [enterExitProjFor] <;>
          (intro he
           rcases h with h2 | h2
           · exact h2
           · exact absurd he h2)

/-- The region loop over all configured regions obeys the alternation
consumer on the (tid, rn) slice, whichever configured regions share that
name, and leaves the other slices' contribution empty. -/
lemma appendRegionEventsAll_altConsume (roi : RoiSettings) (tid ts : Int) (pt : Point)
    (rn : String) (rgs : List (String × RoiRegion))
    (rs : List (String × RegionTrackState)) :
    altConsume (!((rs.lookup rn).getD initialRegionTrackState).committedInside)
        (enterExitProjFor tid rn (appendRegionEventsAll roi tid ts pt rgs rs).2)
      = some (!(((appendRegionEventsAll roi tid ts pt rgs rs).1.lookup rn).getD
          initialRegionTrackState).committedInside) := by
  induction rgs generalizing rs with
  | nil => rfl
  | cons hd rest ih =>
      obtain ⟨rn', rg⟩ := hd
      simp only [appendRegionEventsAll, appendRegionEvents]
      rw [enterExitProjFor_append, altConsume_append]
      by_cases hrn : rn' = rn
      · subst hrn
        rw [appendRegionEventsCore_altConsume]
        rw [Option.some_bind]
        have := ih (assocSet rs rn'
          ((appendRegionEventsCore roi.transitionMinMs
            (roi.dwellThresholdMsForRegion rn') rn' tid ts (pointInRegion pt rg)
            ((rs.lookup rn').getD initialRegionTrackState)).1))
        rw [lookup_assocSet_self] at this
        simpa using this
      · rw [appendRegionEventsCore_projFor_other _ _ _ _ _ _ _ _ _ (Or.inl hrn)]
        rw [show altConsume
            (!((rs.lookup rn).getD initialRegionTrackState).committedInside) ([] : List Bool)
          = some (!((rs.lookup rn).getD initialRegionTrackState).committedInside) from rfl]
        rw [Option.some_bind]
        have := ih (assocSet rs rn'
          ((appendRegionEventsCore roi.transitionMinMs
            (roi.dwellThresholdMsForRegion rn') rn' tid ts (pointInRegion pt rg)
            ((rs.lookup rn').getD initialRegionTrackState)).1))
        rw [lookup_assocSet_ne _ _ _ _ (fun he => hrn he.symm)] at this
        exact this

/-- The region loop for a different track contributes nothing to the
projection. -/
lemma appendRegionEventsAll_projFor_other (roi : RoiSettings) (tid' ts : Int)
    (pt : Point) (tid : Int) (rn : String) (h : tid' ≠ tid)
    (rgs : List (String × RoiRegion)) (rs : List (String × RegionTrackState)) :
    enterExitProjFor tid rn (appendRegionEventsAll roi tid' ts pt rgs rs).2 = [] := by
  induction rgs generalizing rs with
  | nil => rfl
  | cons hd rest ih =>
      obtain ⟨rn', rg⟩ := hd
      simp only [appendRegionEventsAll, appendRegionEvents]
      rw [enterExitProjFor_append,
        appendRegionEventsCore_projFor_other _ _ _ _ _ _ _ _ _ (Or.inr h), ih]
      rfl

lemma committedFor_eq_slice (tracks : List (Int × TrackEventState)) (tid : Int)
    (rn : String) (ts : Int) :
    committedFor tracks tid rn
      = (((((tracks.lookup tid).getD ⟨[], ts⟩)).regionStates.lookup rn).getD
          initialRegionTrackState).committedInside := by
  unfold committedFor
  cases htr : tracks.lookup tid <;> rfl

lemma committedFor_assocSet (tracks : List (Int × TrackEventState)) (tid : Int)
    (rn : String) (st : TrackEventState) :
    committedFor (assocSet tracks tid st) tid rn
      = ((st.regionStates.lookup rn).getD initialRegionTrackState).committedInside := by
  unfold committedFor
  rw [lookup_assocSet_self]

lemma committedFor_assocSet_ne (tracks : List (Int × TrackEventState))
    (tid tid' : Int) (rn : String) (st : TrackEventState) (h : tid ≠ tid') :
    committedFor (assocSet tracks tid' st) tid rn = committedFor tracks tid rn := by
  unfold committedFor
  rw [lookup_assocSet_ne _ _ _ _ h]

/-- The detections loop of one frame obeys the alternation consumer on
the (tid, rn) slice: skipped detections and other tracks contribute
nothing, and tid's single processing steps the slice. -/
lemma processFrameDetections_altConsume (roi : RoiSettings)
    (rgs : List (String × RoiRegion)) (ts : Int) (tid : Int) (rn : String)
    (dets : List Detection) (seen : List Int)
    (tracks : List (Int × TrackEventState)) :
    altConsume (!committedFor tracks tid rn)
        (enterExitProjFor tid rn
          (processFrameDetections roi rgs ts dets seen tracks).2)
      = some (!committedFor (processFrameDetections roi rgs ts dets seen tracks).1
          tid rn) := by
  induction dets generalizing seen tracks with
  | nil => rfl
  | cons det rest ih =>
      simp only [processFrameDetections]
      cases hdet : det.trackId with
      | none => exact ih seen tracks
      | some tid' =>
          dsimp only
          by_cases hseen : tid' ∈ seen
          · rw [if_pos hseen]
            exact ih seen tracks
          · rw [if_neg hseen]
            dsimp only
            rw [enterExitProjFor_append, altConsume_append]
            by_cases htid : tid' = tid
            · subst htid
              rw [committedFor_eq_slice tracks tid' rn ts,
                appendRegionEventsAll_altConsume, Option.some_bind]
              have := ih (tid' :: seen) (assocSet tracks tid'
                ⟨(appendRegionEventsAll roi tid' ts det.point rgs
                    (((tracks.lookup tid').getD ⟨[], ts⟩)).regionStates).1, ts⟩)
              rw [committedFor_assocSet] at this
              exact this
            · rw [appendRegionEventsAll_projFor_other _ _ _ _ _ _ htid]
              rw [show altConsume (!committedFor tracks tid rn) ([] : List Bool)
                = some (!committedFor tracks tid rn) from rfl]
              rw [Option.some_bind]
              have := ih (tid' :: seen) (assocSet tracks tid'
                ⟨(appendRegionEventsAll roi tid' ts det.point rgs
                    (((tracks.lookup tid').getD ⟨[], ts⟩)).regionStates).1, ts⟩)
              rw [committedFor_assocSet_ne _ _ _ _ _ (fun he => htid he.symm)] at this
              exact this

/-- When the frame's eviction pass does not delete tid, its state entry
is untouched. -/
lemma lookup_evictStaleTrackState (now tid : Int)
    (tracks : List (Int × TrackEventState))
    (h : trackEvictedAt now tracks tid = false) :
    (evictStaleTrackState now tracks).lookup tid = tracks.lookup tid := by
  induction tracks with
  | nil => rfl
  | cons hd rest ih =>
      obtain ⟨k, st⟩ := hd
      by_cases hk : k = tid
      · subst hk
        have hlk : ((k, st) :: rest).lookup k = some st := by
          simp [List.lookup]
        unfold trackEvictedAt at h
        rw [hlk] at h
        have hkeep : ¬(trackStateTtlMs < now - st.lastSeenTsMs) := by
          simpa using h
        simp [evictStaleTrackState, hkeep, List.lookup]
      · have hb : (tid == k) = false := by
          cases hh : (tid == k)
          · rfl
          · exact absurd (eq_of_beq hh).symm hk
        have h' : trackEvictedAt now rest tid = false := by
          unfold trackEvictedAt at h ⊢
          rw [show ((k, st) :: rest).lookup tid = rest.lookup tid by
            simp [List.lookup, hb]] at h
          exact h
        by_cases hkeep : trackStateTtlMs < now - st.lastSeenTsMs
        · simp [evictStaleTrackState, hkeep, ih h', List.lookup, hb]
        · simp [evictStaleTrackState, hkeep, ih h', List.lookup, hb]

lemma committedFor_evictStaleTrackState (now tid : Int) (rn : String)
    (tracks : List (Int × TrackEventState))
    (h : trackEvictedAt now tracks tid = false) :
    committedFor (evictStaleTrackState now tracks) tid rn
      = committedFor tracks tid rn := by
  unfold committedFor
  rw [lookup_evictStaleTrackState now tid tracks h]

/-- A full-engine run in which tid is never TTL-evicted obeys the
alternation consumer on the (tid, rn) slice. -/
lemma runDetectionEngine_altConsume (roi : RoiSettings)
    (rgs : List (String × RoiRegion)) (tid : Int) (rn : String)
    (frames : List DetectionsFrame) (tracks : List (Int × TrackEventState))
    (h : runDetectionEngineEvicts roi rgs tid tracks frames = false) :
    altConsume (!committedFor tracks tid rn)
        (enterExitProjFor tid rn (runDetectionEngine roi rgs tracks frames).2)
      = some (!committedFor (runDetectionEngine roi rgs tracks frames).1 tid rn) := by
  induction frames generalizing tracks with
  | nil => rfl
  | cons f rest ih =>
      simp only [runDetectionEngineEvicts, Bool.or_eq_false_iff] at h
      obtain ⟨h1, h2⟩ := h
      simp only [runDetectionEngine]
      rw [enterExitProjFor_append, altConsume_append,
        processFrameDetections_altConsume, Option.some_bind]
      have := ih (evictStaleTrackState f.tsMs
        (processFrameDetections roi rgs f.tsMs f.detections [] tracks).1) h2
      rw [committedFor_evictStaleTrackState _ _ _ _ h1] at this
      exact this

/-- C3 (counterexample): the claim asserts strict alternation for every
run of the detection event engine, but the engine TTL-evicts a track
state not refreshed for more than 30000 ms (events.py lines 134-135,
283-291), silently forgetting a committed inside flag: track 7 enters
region "zone" at ts 0, its state is evicted during the empty frame at ts
31000 with no roi_exit, and its re-observation inside at ts 32000 emits a
second roi_enter, so the (7, "zone") sequence is enter, enter. -/
theorem c3_alternation_ttl_eviction_counterexample :
    enterExitProjFor 7 "zone"
        (runDetectionEngine ⟨0, 60000, []⟩ [("zone", ⟨0, 0, 10, 10⟩)] []
          [⟨0, [⟨some 7, (5, 5)⟩]⟩, ⟨31000, []⟩,
           ⟨32000, [⟨some 7, (5, 5)⟩]⟩]).2 = [true, true] ∧
    alternatesFrom true
      (enterExitProjFor 7 "zone"
        (runDetectionEngine ⟨0, 60000, []⟩ [("zone", ⟨0, 0, 10, 10⟩)] []
          [⟨0, [⟨some 7, (5, 5)⟩]⟩, ⟨31000, []⟩,
           ⟨32000, [⟨some 7, (5, 5)⟩]⟩]).2) = false ∧
    runDetectionEngineEvicts ⟨0, 60000, []⟩ [("zone", ⟨0, 0, 10, 10⟩)] 7 []
        [⟨0, [⟨some 7, (5, 5)⟩]⟩, ⟨31000, []⟩,
         ⟨32000, [⟨some 7, (5, 5)⟩]⟩] = true := by
  decide

/-- C3 (amended): for every run of the full detection engine from the
empty track map, over any frame sequence in which track T's state is
never TTL-evicted, the roi_enter/roi_exit subsequence for (T, R) strictly
alternates starting with roi_enter (or is empty), for every value of
transition_min_ms — the immediate-commit rule and the debounced rule
alike; once an eviction strikes T, the counterexample above shows the
unrestricted claim fails. -/
theorem c3_roi_enter_exit_alternation (roi : RoiSettings)
    (regions : List (String × RoiRegion)) (trackId : Int) (regionName : String)
    (frames : List DetectionsFrame)
    (hkeep : runDetectionEngineEvicts roi regions trackId [] frames = false) :
    alternatesFrom true
      (enterExitProjFor trackId regionName
        (runDetectionEngine roi regions [] frames).2) = true := by
  have h := runDetectionEngine_altConsume roi regions trackId regionName frames [] hkeep
  have hc : committedFor [] trackId regionName = false := rfl
  rw [hc, Bool.not_false] at h
  rw [alternatesFrom_iff_altConsume, h]
  rfl

/-- Witness for C3 (amended) at a concrete eviction-free enter/exit/enter
run. -/
theorem c3_roi_enter_exit_alternation_witness :
    runDetectionEngineEvicts ⟨0, 60000, []⟩ [("zone", ⟨0, 0, 10, 10⟩)] 7 []
        [⟨0, [⟨some 7, (5, 5)⟩]⟩, ⟨1000, [⟨some 7, (50, 50)⟩]⟩,
         ⟨2000, [⟨some 7, (5, 5)⟩]⟩] = false ∧
    alternatesFrom true
      (enterExitProjFor 7 "zone"
        (runDetectionEngine ⟨0, 60000, []⟩ [("zone", ⟨0, 0, 10, 10⟩)] []
          [⟨0, [⟨some 7, (5, 5)⟩]⟩, ⟨1000, [⟨some 7, (50, 50)⟩]⟩,
           ⟨2000, [⟨some 7, (5, 5)⟩]⟩]).2) = true :=
  ⟨by decide,
    c3_roi_enter_exit_alternation ⟨0, 60000, []⟩ [("zone", ⟨0, 0, 10, 10⟩)] 7 "zone"
      [⟨0, [⟨some 7, (5, 5)⟩]⟩, ⟨1000, [⟨some 7, (50, 50)⟩]⟩,
       ⟨2000, [⟨some 7, (5, 5)⟩]⟩] (by decide)⟩

/-! ### Dwell trace lemmas. -/

lemma enterDwellProj_append (a b : List EventEntry) :
    enterDwellProj (a ++ b) = enterDwellProj a ++ enterDwellProj b := by
  simp [enterDwellProj]

lemma enterDwellProj_enter (ts : Int) (tid : Int) (rn : String) :
    enterDwellProj [⟨"roi_enter", ts, "low", some tid, EventData.roi rn⟩] = [false] := rfl

lemma enterDwellProj_exit (ts : Int) (tid : Int) (rn : String) :
    enterDwellProj [⟨"roi_exit", ts, "low", some tid, EventData.roi rn⟩] = [] := rfl

lemma enterDwellProj_dwell (ts : Int) (tid : Int) (rn : String) (dms : Int) :
    enterDwellProj [⟨"roi_dwell", ts, "medium", some tid, EventData.roiDwell rn dms⟩]
      = [true] := by
  simp [enterDwellProj]

lemma separatedMarkers_mono (l : List Bool) (h : separatedMarkers false l = true) :
    separatedMarkers true l = true := by
  cases l with
  | nil => rfl
  | cons x xs =>
      cases x
      · exact h
      · simp [separatedMarkers] at h

/-- Transition phase, dwell-marker view: no marker with flags untouched,
an enter marker committing with a re-armed dwell flag, or a marker-less
exit that clears both flags. -/
lemma regionTransitionStep_enterDwell (minT : Int) (rn : String) (tid ts : Int)
    (insideNow : Bool) (s : RegionTrackState) :
    (enterDwellProj (regionTransitionStep minT rn tid ts insideNow s).2 = [] ∧
       (regionTransitionStep minT rn tid ts insideNow s).1.committedInside = s.committedInside ∧
       (regionTransitionStep minT rn tid ts insideNow s).1.dwellEmitted = s.dwellEmitted) ∨
    (enterDwellProj (regionTransitionStep minT rn tid ts insideNow s).2 = [false] ∧
       (regionTransitionStep minT rn tid ts insideNow s).1.committedInside = true ∧
       (regionTransitionStep minT rn tid ts insideNow s).1.dwellEmitted = false) ∨
    (enterDwellProj (regionTransitionStep minT rn tid ts insideNow s).2 = [] ∧
       (regionTransitionStep minT rn tid ts insideNow s).1.committedInside = false ∧
       (regionTransitionStep minT rn tid ts insideNow s).1.dwellEmitted = false) := by
  unfold regionTransitionStep
  by_cases hmin : minT ≤ 0
  · rw [if_pos hmin]
    cases hi : insideNow <;> cases hc : s.committedInside <;>
      simp [enterDwellProj_enter, enterDwellProj_exit, enterDwellProj, hc]
  · rw [if_neg hmin]
    by_cases hsame : insideNow = s.committedInside
    · rw [if_pos hsame]
      left
      exact ⟨rfl, rfl, rfl⟩
    · rw [if_neg hsame]
      by_cases hpend : s.pendingInside ≠ some insideNow
      · rw [if_pos hpend]
        left
        exact ⟨rfl, rfl, rfl⟩
      · rw [if_neg hpend]
        cases hsince : s.pendingSinceTsMs with
        | none => left; exact ⟨rfl, rfl, rfl⟩
        | some since =>
            dsimp only
            by_cases helapsed : minT ≤ max (ts - since) 0
            · rw [if_pos helapsed]
              cases hi : insideNow
              · rw [if_neg (by simp)]
                right; right
                exact ⟨enterDwellProj_exit ts tid rn, rfl, rfl⟩
              · rw [if_pos rfl]
                right; left
                exact ⟨enterDwellProj_enter ts tid rn, rfl, rfl⟩
            · rw [if_neg helapsed]
              left
              exact ⟨rfl, rfl, rfl⟩

/-- Dwell phase, dwell-marker view: no marker with flags untouched, or a
dwell marker that requires a committed state with a cleared dwell flag
and then sets it. -/
lemma regionDwellStep_enterDwell (thr : Int) (rn : String) (tid ts : Int)
    (s : RegionTrackState) :
    (enterDwellProj (regionDwellStep thr rn tid ts s).2 = [] ∧
       (regionDwellStep thr rn tid ts s).1.committedInside = s.committedInside ∧
       (regionDwellStep thr rn tid ts s).1.dwellEmitted = s.dwellEmitted) ∨
    (enterDwellProj (regionDwellStep thr rn tid ts s).2 = [true] ∧
       s.committedInside = true ∧ s.dwellEmitted = false ∧
       (regionDwellStep thr rn tid ts s).1.committedInside = s.committedInside ∧
       (regionDwellStep thr rn tid ts s).1.dwellEmitted = true) := by
  unfold regionDwellStep
  by_cases hc : s.committedInside = true
  · rw [if_pos hc]
    cases henter : s.enterTsMs <;> dsimp only <;> split_ifs with hcond
    · right
      exact ⟨enterDwellProj_dwell ts tid rn _, hc, hcond.1, rfl, rfl⟩
    · left; exact ⟨rfl, rfl, rfl⟩
    · right
      exact ⟨enterDwellProj_dwell ts tid rn _, hc, hcond.1, rfl, rfl⟩
    · left; exact ⟨rfl, rfl, rfl⟩
  · rw [if_neg hc]
    left
    exact ⟨rfl, rfl, rfl⟩

/-- One full region observation, dwell-marker view: the four marker shapes
with the corresponding evolution of the armed flag
(committed && not dwell-emitted). -/
lemma appendRegionEventsCore_dwellMarkers (minT thr : Int) (rn : String) (tid ts : Int)
    (insideNow : Bool) (s : RegionTrackState) :
    (enterDwellProj (appendRegionEventsCore minT thr rn tid ts insideNow s).2 = [] ∧
       ((appendRegionEventsCore minT thr rn tid ts insideNow s).1.committedInside
           && !(appendRegionEventsCore minT thr rn tid ts insideNow s).1.dwellEmitted)
         = (s.committedInside && !s.dwellEmitted)) ∨
    (enterDwellProj (appendRegionEventsCore minT thr rn tid ts insideNow s).2 = []
       ∧ (s.committedInside && !s.dwellEmitted) = true) ∨
    (enterDwellProj (appendRegionEventsCore minT thr rn tid ts insideNow s).2 = [false] ∧
       ((appendRegionEventsCore minT thr rn tid ts insideNow s).1.committedInside
           && !(appendRegionEventsCore minT thr rn tid ts insideNow s).1.dwellEmitted)
         = true) ∨
    (enterDwellProj (appendRegionEventsCore minT thr rn tid ts insideNow s).2 = [false, true] ∧
       ((appendRegionEventsCore minT thr rn tid ts insideNow s).1.committedInside
           && !(appendRegionEventsCore minT thr rn tid ts insideNow s).1.dwellEmitted)
         = false) ∨
    (enterDwellProj (appendRegionEventsCore minT thr rn tid ts insideNow s).2 = [true] ∧
       (s.committedInside && !s.dwellEmitted) = true ∧
       ((appendRegionEventsCore minT thr rn tid ts insideNow s).1.committedInside
           && !(appendRegionEventsCore minT thr rn tid ts insideNow s).1.dwellEmitted)
         = false) := by
  unfold appendRegionEventsCore
  rcases regionDwellStep_enterDwell thr rn tid ts (regionTransitionStep minT rn tid ts insideNow s).1 with
      ⟨hd1, hd2, hd3⟩ | ⟨hd1, hd2, hd3, hd4, hd5⟩
  · rcases regionTransitionStep_enterDwell minT rn tid ts insideNow s with
        ⟨ht1, ht2, ht3⟩ | ⟨ht1, ht2, ht3⟩ | ⟨ht1, ht2, ht3⟩
    · left
      rw [enterDwellProj_append, ht1, hd1, hd2, hd3, ht2, ht3]
      exact ⟨rfl, rfl⟩
    · right; right; left
      rw [enterDwellProj_append, ht1, hd1, hd2, hd3, ht2, ht3]
      exact ⟨rfl, rfl⟩
    · cases ha : (s.committedInside && !s.dwellEmitted)
      · left
        constructor
        · rw [enterDwellProj_append, ht1, hd1]
          rfl
        · rw [hd2, hd3, ht2, ht3]
          rfl
      · right; left
        constructor
        · rw [enterDwellProj_append, ht1, hd1]
          rfl
        · rfl
  · rcases regionTransitionStep_enterDwell minT rn tid ts insideNow s with
        ⟨ht1, ht2, ht3⟩ | ⟨ht1, ht2, ht3⟩ | ⟨ht1, ht2, ht3⟩
    · right; right; right; right
      rw [enterDwellProj_append, ht1, hd1, hd4, hd5, ht2]
      refine ⟨rfl, ?_, by simp⟩
      rw [← ht2, ← ht3, hd2, hd3]
      rfl
    · right; right; right; left
      rw [enterDwellProj_append, ht1, hd1, hd4, hd5, ht2]
      exact ⟨rfl, by simp⟩
    · rw [ht2] at hd2
      simp at hd2

/-- From any state, the dwell/enter markers of a run satisfy the
once-per-window discipline, armed exactly when the state is committed
with a cleared dwell flag. -/
lemma runRegionEngine_dwellSeparated (roi : RoiSettings) (rn : String) (rg : RoiRegion)
    (tid : Int) (s : RegionTrackState) (inputs : List (Int × Point)) :
    separatedMarkers (s.committedInside && !s.dwellEmitted)
      (enterDwellProj (runRegionEngine roi rn rg tid s inputs).2) = true := by
  induction inputs generalizing s with
  | nil => simp [runRegionEngine, enterDwellProj, separatedMarkers]
  | cons i rest ih =>
      obtain ⟨ts, pt⟩ := i
      simp only [runRegionEngine, appendRegionEvents]
      rw [enterDwellProj_append]
      have ih' := ih (appendRegionEventsCore roi.transitionMinMs
        (roi.dwellThresholdMsForRegion rn) rn tid ts (pointInRegion pt rg) s).1
      rcases appendRegionEventsCore_dwellMarkers roi.transitionMinMs
          (roi.dwellThresholdMsForRegion rn) rn tid ts (pointInRegion pt rg) s with
          ⟨h1, h2⟩ | ⟨h1, h2⟩ | ⟨h1, h2⟩ | ⟨h1, h2⟩ | ⟨h1, h2, h3⟩
      · rw [h2] at ih'
        rw [h1]
        simpa using ih'
      · rw [h1, h2]
        cases ha : ((appendRegionEventsCore roi.transitionMinMs
            (roi.dwellThresholdMsForRegion rn) rn tid ts (pointInRegion pt rg) s).1.committedInside
            && !(appendRegionEventsCore roi.transitionMinMs
              (roi.dwellThresholdMsForRegion rn) rn tid ts (pointInRegion pt rg) s).1.dwellEmitted)
        · rw [ha] at ih'
          exact separatedMarkers_mono _ ih'
        · rw [ha] at ih'
          exact ih'
      · rw [h1]
        rw [h2] at ih'
        simpa [separatedMarkers] using ih'
      · rw [h1]
        rw [h2] at ih'
        simpa [separatedMarkers] using ih'
      · rw [h1, h2]
        rw [h3] at ih'
        simpa [separatedMarkers] using ih'

/-- C4: while committed inside with a recorded enter timestamp, the dwell
rule emits roi_dwell (severity medium, data roi and dwell_ms) exactly when
the time since enter_ts reaches the region's dwell threshold (per-region
override or default) and no dwell was emitted for the current entry; over
any run from the initial state, roi_dwell fires at most once per
continuous-inside window, re-armed only by a roi_enter. -/
theorem c4_roi_dwell_once_per_entry (roi : RoiSettings) (regionName : String)
    (region : RoiRegion) (trackId : Int) (tsMs enterTs : Int) (s : RegionTrackState)
    (inputs : List (Int × Point))
    (hc : s.committedInside = true) (he : s.enterTsMs = some enterTs)
    (hle : enterTs ≤ tsMs) :
    ((∃ e ∈ (regionDwellStep (roi.dwellThresholdMsForRegion regionName) regionName
          trackId tsMs s).2, e.name = "roi_dwell") ↔
      (s.dwellEmitted = false ∧ roi.dwellThresholdMsForRegion regionName ≤ tsMs - enterTs)) ∧
    ((regionDwellStep (roi.dwellThresholdMsForRegion regionName) regionName
        trackId tsMs s).2 = [] ∨
     (regionDwellStep (roi.dwellThresholdMsForRegion regionName) regionName
        trackId tsMs s).2 =
       [⟨"roi_dwell", tsMs, "medium", some trackId,
          EventData.roiDwell regionName (tsMs - enterTs)⟩]) ∧
    separatedMarkers true
      (enterDwellProj
        (runRegionEngine roi regionName region trackId initialRegionTrackState inputs).2)
      = true := by
  have hmax : max (tsMs - enterTs) 0 = tsMs - enterTs := max_eq_left (by omega)
  refine ⟨?_, ?_, ?_⟩
  · unfold regionDwellStep
    rw [if_pos hc, he]
    dsimp only
    rw [hmax]
    split_ifs with hcond
    · simp only [List.mem_singleton]
      constructor
      · intro _
        exact hcond
      · intro _
        exact ⟨⟨"roi_dwell", tsMs, "medium", some trackId,
            EventData.roiDwell regionName (tsMs - enterTs)⟩, rfl, rfl⟩
    · simp only [List.not_mem_nil]
      constructor
      · rintro ⟨e, he', -⟩
        exact absurd he' (by simp)
      · intro hcond'
        exact absurd hcond' hcond
  · unfold regionDwellStep
    rw [if_pos hc, he]
    dsimp only
    rw [hmax]
    split_ifs with hcond
    · right; rfl
    · left; rfl
  · refine separatedMarkers_mono _ ?_
    simpa [initialRegionTrackState] using
      runRegionEngine_dwellSeparated roi regionName region trackId initialRegionTrackState inputs

/-- Witness for C4 at a concrete committed state and threshold. -/
theorem c4_roi_dwell_once_per_entry_witness :
    ((∃ e ∈ (regionDwellStep ((RoiSettings.mk 0 3 []).dwellThresholdMsForRegion "zone") "zone"
          7 5 ⟨true, some 0, false, none, none⟩).2, e.name = "roi_dwell") ↔
      ((⟨true, some 0, false, none, none⟩ : RegionTrackState).dwellEmitted = false ∧
        (RoiSettings.mk 0 3 []).dwellThresholdMsForRegion "zone" ≤ 5 - 0)) ∧
    ((regionDwellStep ((RoiSettings.mk 0 3 []).dwellThresholdMsForRegion "zone") "zone"
        7 5 ⟨true, some 0, false, none, none⟩).2 = [] ∨
     (regionDwellStep ((RoiSettings.mk 0 3 []).dwellThresholdMsForRegion "zone") "zone"
        7 5 ⟨true, some 0, false, none, none⟩).2 =
       [⟨"roi_dwell", 5, "medium", some 7, EventData.roiDwell "zone" (5 - 0)⟩]) ∧
    separatedMarkers true
      (enterDwellProj
        (runRegionEngine (RoiSettings.mk 0 3 []) "zone" ⟨0, 0, 10, 10⟩ 7
          initialRegionTrackState [(0, (1, 1)), (5, (1, 1))]).2) = true :=
  c4_roi_dwell_once_per_entry (RoiSettings.mk 0 3 []) "zone" ⟨0, 0, 10, 10⟩ 7 5 0
    ⟨true, some 0, false, none, none⟩ [(0, (1, 1)), (5, (1, 1))] rfl rfl (by decide)

/-! ### Motion engine lemmas. -/

/-- The per-event cooldown check, spelled out. -/
lemma canEmitMotion_iff (cfg : MotionSettings) (s : MotionTrackState)
    (eventName : String) (tsMs : Int) :
    canEmitMotion cfg s eventName tsMs = true ↔
      (cfg.eventCooldownMs ≤ 0 ∨ s.lastEventTsMs.lookup eventName = none ∨
       ∃ last, s.lastEventTsMs.lookup eventName = some last ∧
         cfg.eventCooldownMs ≤ tsMs - last) := by
  unfold canEmitMotion
  split_ifs with h0
  · simp [h0]
  · cases hl : s.lastEventTsMs.lookup eventName with
    | none => simp [hl]
    | some last =>
        dsimp only
        split_ifs with h2
        · simp [hl, h2]
        · simp [hl, h0, h2]

/-- C5: when the motion engine is enabled and the latest speed v is
defined on the updated history, a sudden_motion event (severity medium,
carrying the speed) is emitted exactly when v or the speed delta (0 when
the previous speed is undefined) reaches sudden_motion_speed_px_s and the
per-track sudden_motion cooldown permits; when the latest speed is
undefined (e.g. a non-positive time delta) the sample is still appended
to the bounded history but no event is emitted. -/
theorem c5_sudden_motion_condition (cfg : MotionSettings) (hypot : ℚ → ℚ → ℚ)
    (trackId tsMs : Int) (point : Point) (s : MotionTrackState)
    (henabled : cfg.enabled = true) :
    (∀ v, latestSpeedPxS hypot
        (boundedAppend cfg.historyFrames s.history ⟨tsMs, point.1, point.2⟩) = some v →
      (((∃ e ∈ (processMotionSample cfg hypot trackId tsMs point s).2,
            e.name = "sudden_motion") ↔
        ((cfg.suddenMotionSpeedPxS ≤ v ∨
          cfg.suddenMotionSpeedPxS ≤
            (match previousSpeedPxS hypot
                (boundedAppend cfg.historyFrames s.history ⟨tsMs, point.1, point.2⟩) with
             | some speedPrev => |v - speedPrev|
             | none => 0)) ∧
         (cfg.eventCooldownMs ≤ 0 ∨ s.lastEventTsMs.lookup "sudden_motion" = none ∨
          ∃ last, s.lastEventTsMs.lookup "sudden_motion" = some last ∧
            cfg.eventCooldownMs ≤ tsMs - last))) ∧
       (∀ e ∈ (processMotionSample cfg hypot trackId tsMs point s).2,
          e.name = "sudden_motion" →
          e = ⟨"sudden_motion", tsMs, "medium", some trackId, EventData.suddenMotion v⟩))) ∧
    (latestSpeedPxS hypot
        (boundedAppend cfg.historyFrames s.history ⟨tsMs, point.1, point.2⟩) = none →
      (processMotionSample cfg hypot trackId tsMs point s).2 = [] ∧
      (processMotionSample cfg hypot trackId tsMs point s).1.history
        = boundedAppend cfg.historyFrames s.history ⟨tsMs, point.1, point.2⟩) := by
  constructor
  · intro v hv
    unfold processMotionSample
    rw [if_neg (by rw [henabled]; simp)]
    dsimp only
    rw [hv]
    dsimp only
    by_cases hcond :
        (cfg.suddenMotionSpeedPxS ≤ v ∨
          cfg.suddenMotionSpeedPxS ≤
            (match previousSpeedPxS hypot
                (boundedAppend cfg.historyFrames s.history ⟨tsMs, point.1, point.2⟩) with
             | some speedPrev => |v - speedPrev|
             | none => 0)) ∧
        canEmitMotion cfg
          { s with lastSeenTsMs := tsMs,
                   history := boundedAppend cfg.historyFrames s.history
                     ⟨tsMs, point.1, point.2⟩ } "sudden_motion" tsMs = true
    · rw [if_pos hcond]
      dsimp only
      constructor
      · split_ifs <;>
          exact iff_of_true
            ⟨⟨"sudden_motion", tsMs, "medium", some trackId, EventData.suddenMotion v⟩,
              by simp, rfl⟩
            ⟨hcond.1, (canEmitMotion_iff cfg _ "sudden_motion" tsMs).mp hcond.2⟩
      · split_ifs <;> intro e he hname <;> fin_cases he <;> first | rfl | simp at hname
    · rw [if_neg hcond]
      dsimp only
      constructor
      · split_ifs <;> refine iff_of_false ?_ ?_ <;>
          first
          | (rintro ⟨e, he, hname⟩
             fin_cases he <;> simp at hname)
          | (rintro ⟨hor, hcool⟩
             exact hcond ⟨hor, (canEmitMotion_iff cfg _ "sudden_motion" tsMs).mpr hcool⟩)
      · split_ifs <;> intro e he hname <;> (fin_cases he <;> simp at hname)
  · intro hnone
    unfold processMotionSample
    rw [if_neg (by rw [henabled]; simp)]
    dsimp only
    rw [hnone]
    exact ⟨rfl, rfl⟩

/-- Witness for C5 at a concrete track history and configuration. -/
theorem c5_sudden_motion_condition_witness :
    (∀ v, latestSpeedPxS (fun dx dy => |dx| + |dy|)
        (boundedAppend (MotionSettings.mk true 8 250 20 1500 1500).historyFrames
          (MotionTrackState.mk [⟨0, 0, 0⟩] none false [] 0).history ⟨100, (50, 0).1, (50, 0).2⟩)
        = some v →
      (((∃ e ∈ (processMotionSample (MotionSettings.mk true 8 250 20 1500 1500)
            (fun dx dy => |dx| + |dy|) 3 100 (50, 0)
            (MotionTrackState.mk [⟨0, 0, 0⟩] none false [] 0)).2,
            e.name = "sudden_motion") ↔
        (((MotionSettings.mk true 8 250 20 1500 1500).suddenMotionSpeedPxS ≤ v ∨
          (MotionSettings.mk true 8 250 20 1500 1500).suddenMotionSpeedPxS ≤
            (match previousSpeedPxS (fun dx dy => |dx| + |dy|)
                (boundedAppend (MotionSettings.mk true 8 250 20 1500 1500).historyFrames
                  (MotionTrackState.mk [⟨0, 0, 0⟩] none false [] 0).history
                  ⟨100, (50, 0).1, (50, 0).2⟩) with
             | some speedPrev => |v - speedPrev|
             | none => 0)) ∧
         ((MotionSettings.mk true 8 250 20 1500 1500).eventCooldownMs ≤ 0 ∨
          (MotionTrackState.mk [⟨0, 0, 0⟩] none false [] 0).lastEventTsMs.lookup
            "sudden_motion" = none ∨
          ∃ last, (MotionTrackState.mk [⟨0, 0, 0⟩] none false [] 0).lastEventTsMs.lookup
              "sudden_motion" = some last ∧
            (MotionSettings.mk true 8 250 20 1500 1500).eventCooldownMs ≤ 100 - last))) ∧
       (∀ e ∈ (processMotionSample (MotionSettings.mk true 8 250 20 1500 1500)
            (fun dx dy => |dx| + |dy|) 3 100 (50, 0)
            (MotionTrackState.mk [⟨0, 0, 0⟩] none false [] 0)).2,
          e.name = "sudden_motion" →
          e = ⟨"sudden_motion", 100, "medium", some 3, EventData.suddenMotion v⟩))) ∧
    (latestSpeedPxS (fun dx dy => |dx| + |dy|)
        (boundedAppend (MotionSettings.mk true 8 250 20 1500 1500).historyFrames
          (MotionTrackState.mk [⟨0, 0, 0⟩] none false [] 0).history ⟨100, (50, 0).1, (50, 0).2⟩)
        = none →
      (processMotionSample (MotionSettings.mk true 8 250 20 1500 1500)
          (fun dx dy => |dx| + |dy|) 3 100 (50, 0)
          (MotionTrackState.mk [⟨0, 0, 0⟩] none false [] 0)).2 = [] ∧
      (processMotionSample (MotionSettings.mk true 8 250 20 1500 1500)
          (fun dx dy => |dx| + |dy|) 3 100 (50, 0)
          (MotionTrackState.mk [⟨0, 0, 0⟩] none false [] 0)).1.history
        = boundedAppend (MotionSettings.mk true 8 250 20 1500 1500).historyFrames
            (MotionTrackState.mk [⟨0, 0, 0⟩] none false [] 0).history
            ⟨100, (50, 0).1, (50, 0).2⟩) :=
  c5_sudden_motion_condition (MotionSettings.mk true 8 250 20 1500 1500)
    (fun dx dy => |dx| + |dy|) 3 100 (50, 0)
    (MotionTrackState.mk [⟨0, 0, 0⟩] none false [] 0) rfl

/-! ### Collision engine lemmas. -/

/-- The per-pair cooldown check, spelled out. -/
lemma canEmitCollision_iff (cfg : CollisionSettings) (state : PairState) (tsMs : Int) :
    canEmitCollision cfg state tsMs = true ↔
      (cfg.pairCooldownMs ≤ 0 ∨ state.lastEventTsMs = none ∨
       ∃ last, state.lastEventTsMs = some last ∧ cfg.pairCooldownMs ≤ tsMs - last) := by
  unfold canEmitCollision
  split_ifs with h0
  · simp [h0]
  · cases hl : state.lastEventTsMs with
    | none => simp [hl]
    | some last =>
        dsimp only
        split_ifs with h2
        · simp [hl, h2]
        · simp [hl, h0, h2]

/-- C6: for an eligible ordered pair observed at one frame, near_collision
(severity high, with both track ids, both classes, the distance and the
closing speed) is emitted exactly when the centroid distance is at most
distance_px, the closing speed — (d_prev - d)/(dt/1000) from the pair's
prior recorded distance when dt > 0, else 0 — is at least
closing_speed_px_s, and the per-pair cooldown permits; last_distance_px
and last_ts_ms are updated on every observation regardless, and the pair
loop skips equal track ids and unconfigured class pairs. -/
theorem c6_near_collision_condition (cfg : CollisionSettings) (dist : Point → Point → ℚ)
    (tsMs : Int) (sampleA sampleB : CollisionSample) (state : PairState) :
    (((processPairObservation cfg dist tsMs sampleA sampleB state).2 ≠ []) ↔
      (dist sampleA.point sampleB.point ≤ cfg.distancePx ∧
       cfg.closingSpeedPxS ≤
         (match state.lastDistancePx, state.lastTsMs with
          | some lastDistance, some lastTs =>
              if 0 < tsMs - lastTs then
                (lastDistance - dist sampleA.point sampleB.point)
                  / (((tsMs - lastTs : Int) : ℚ) / 1000)
              else 0
          | _, _ => 0) ∧
       (cfg.pairCooldownMs ≤ 0 ∨ state.lastEventTsMs = none ∨
        ∃ last, state.lastEventTsMs = some last ∧ cfg.pairCooldownMs ≤ tsMs - last))) ∧
    (processPairObservation cfg dist tsMs sampleA sampleB state).1.lastDistancePx
      = some (dist sampleA.point sampleB.point) ∧
    (processPairObservation cfg dist tsMs sampleA sampleB state).1.lastTsMs = some tsMs ∧
    (∀ e ∈ (processPairObservation cfg dist tsMs sampleA sampleB state).2,
      e = ⟨"near_collision", tsMs, "high", none,
        EventData.nearCollision sampleA.trackId sampleB.trackId
          sampleA.className sampleB.className (dist sampleA.point sampleB.point)
          (match state.lastDistancePx, state.lastTsMs with
           | some lastDistance, some lastTs =>
               if 0 < tsMs - lastTs then
                 (lastDistance - dist sampleA.point sampleB.point)
                   / (((tsMs - lastTs : Int) : ℚ) / 1000)
               else 0
           | _, _ => 0)⟩) ∧
    (∀ more states, sampleA.trackId = sampleB.trackId →
      collisionInnerLoop cfg dist tsMs sampleA (sampleB :: more) states
        = collisionInnerLoop cfg dist tsMs sampleA more states) ∧
    (∀ more states, isEligiblePair cfg sampleA.className sampleB.className = false →
      collisionInnerLoop cfg dist tsMs sampleA (sampleB :: more) states
        = collisionInnerLoop cfg dist tsMs sampleA more states) := by
  refine ⟨?_, ?_, ?_, ?_, ?_, ?_⟩
  · unfold processPairObservation
    dsimp only
    split_ifs with hcond
    · refine iff_of_true (by simp) ?_
      exact ⟨hcond.1, hcond.2.1, (canEmitCollision_iff cfg _ tsMs).mp hcond.2.2⟩
    · refine iff_of_false (by simp) ?_
      rintro ⟨h1, h2, h3⟩
      exact hcond ⟨h1, h2, (canEmitCollision_iff cfg _ tsMs).mpr h3⟩
  · unfold processPairObservation
    dsimp only
    split_ifs with hcond <;> rfl
  · unfold processPairObservation
    dsimp only
    split_ifs with hcond <;> rfl
  · unfold processPairObservation
    dsimp only
    split_ifs with hcond <;> intro e he <;> fin_cases he
    rfl
  · intro more states hid
    simp only [collisionInnerLoop]
    rw [if_pos hid]
  · intro more states helig
    by_cases hid : sampleA.trackId = sampleB.trackId
    · simp only [collisionInnerLoop]
      rw [if_pos hid]
    · simp only [collisionInnerLoop]
      rw [if_neg hid, if_pos helig]

/-! ### Abandoned engine lemmas. -/

/-- The per-track abandoned cooldown check, spelled out. -/
lemma canEmitAbandoned_iff (cfg : AbandonedSettings) (s : ObjectTrackState) (tsMs : Int) :
    canEmitAbandoned cfg s tsMs = true ↔
      (cfg.eventCooldownMs ≤ 0 ∨ s.lastEventTsMs = none ∨
       ∃ last, s.lastEventTsMs = some last ∧ cfg.eventCooldownMs ≤ tsMs - last) := by
  unfold canEmitAbandoned
  split_ifs with h0
  · simp [h0]
  · cases hl : s.lastEventTsMs with
    | none => simp [hl]
    | some last =>
        dsimp only
        split_ifs with h2
        · simp [hl, h2]
        · simp [hl, h0, h2]

/-- Classification of the no-person step: abandonment reset, no open
window, window still open without emission, or emission with all its
preconditions. -/
lemma abandonedNoPersonStep_cases (cfg : AbandonedSettings) (dist : Point → Point → ℚ)
    (tsMs : Int) (sample : AbandonedSample) (s2 : ObjectTrackState) :
    ((abandonedNoPersonStep cfg dist tsMs sample s2).2 = [] ∧
       (abandonedNoPersonStep cfg dist tsMs sample s2).1.abandonedEmitted = false ∧
       (abandonedNoPersonStep cfg dist tsMs sample s2).1.abandonStartedTsMs = none) ∨
    ((abandonedNoPersonStep cfg dist tsMs sample s2).2 = [] ∧
       (abandonedNoPersonStep cfg dist tsMs sample s2).1.abandonedEmitted
         = s2.abandonedEmitted ∧
       (abandonedNoPersonStep cfg dist tsMs sample s2).1.abandonStartedTsMs = none ∧
       s2.abandonStartedTsMs = none) ∨
    ((abandonedNoPersonStep cfg dist tsMs sample s2).2 = [] ∧
       (abandonedNoPersonStep cfg dist tsMs sample s2).1.abandonedEmitted
         = s2.abandonedEmitted ∧
       (∃ startedTs, (abandonedNoPersonStep cfg dist tsMs sample s2).1.abandonStartedTsMs
         = some startedTs)) ∨
    (∃ startedTs,
       (abandonedNoPersonStep cfg dist tsMs sample s2).1.abandonStartedTsMs
         = some startedTs ∧
       s2.abandonedEmitted = false ∧
       (abandonedNoPersonStep cfg dist tsMs sample s2).1.abandonedEmitted = true ∧
       cfg.abandonDelayMs ≤ max (tsMs - startedTs) 0 ∧
       (cfg.eventCooldownMs ≤ 0 ∨ s2.lastEventTsMs = none ∨
        ∃ last, s2.lastEventTsMs = some last ∧ cfg.eventCooldownMs ≤ tsMs - last) ∧
       (∀ bound, cfg.stationaryMaxMovePx = some bound →
        ∀ ref, (abandonedNoPersonStep cfg dist tsMs sample s2).1.abandonReferencePoint
            = some ref →
          dist sample.point ref ≤ bound) ∧
       (abandonedNoPersonStep cfg dist tsMs sample s2).2 =
         [⟨"abandoned_object", tsMs, "high", some sample.trackId,
            EventData.abandonedObject sample.trackId s2.className
              ((abandonedNoPersonStep cfg dist tsMs sample s2).1.abandonPersonId) cfg.roi
              (max (tsMs - startedTs) 0)⟩]) := by
  unfold abandonedNoPersonStep
  by_cases hs3 : (s2.associatedPersonId.isSome ∧ s2.abandonStartedTsMs = none)
  · rw [if_pos hs3]
    dsimp only
    split_ifs with hmoved hdelay hemitted hcool
    · left
      exact ⟨rfl, rfl, rfl⟩
    · right; right; left
      exact ⟨rfl, rfl, tsMs, rfl⟩
    · right; right; left
      exact ⟨rfl, rfl, tsMs, rfl⟩
    · right; right; left
      exact ⟨rfl, rfl, tsMs, rfl⟩
    · right; right; right
      refine ⟨tsMs, rfl, ?_, rfl, by omega, ?_, ?_, rfl⟩
      · cases hse : s2.abandonedEmitted
        · rfl
        · rw [hse] at hemitted
          exact absurd rfl hemitted
      · have := (canEmitAbandoned_iff cfg
          { s2 with abandonStartedTsMs := some tsMs,
                    abandonPersonId := s2.associatedPersonId,
                    abandonReferencePoint := some sample.point,
                    associatedPersonId := none, associatedSinceMs := none } tsMs).mp
          (by revert hcool; cases canEmitAbandoned cfg _ tsMs <;> simp)
        simpa using this
      · intro bound hbound ref href
        rw [Option.some.injEq] at href
        revert hmoved
        rw [hbound, ← href]
        dsimp only
        split_ifs with hlt
        · intro h
          exact absurd rfl h
        · intro _
          exact le_of_not_lt hlt
  · rw [if_neg hs3]
    dsimp only
    cases hstart : s2.abandonStartedTsMs with
    | none =>
        right; left
        exact ⟨rfl, rfl, rfl, rfl⟩
    | some startedTs =>
        dsimp only
        split_ifs with hmoved hdelay hemitted hcool
        · left
          exact ⟨rfl, rfl, rfl⟩
        · right; right; left
          exact ⟨rfl, rfl, startedTs, rfl⟩
        · right; right; left
          exact ⟨rfl, rfl, startedTs, rfl⟩
        · right; right; left
          exact ⟨rfl, rfl, startedTs, rfl⟩
        · right; right; right
          refine ⟨startedTs, rfl, ?_, rfl, by omega, ?_, ?_, rfl⟩
          · cases hse : s2.abandonedEmitted
            · rfl
            · rw [hse] at hemitted
              exact absurd rfl hemitted
          · have hcool' : canEmitAbandoned cfg
                { s2 with associatedPersonId := none, associatedSinceMs := none } tsMs
                  = true := by
              cases h : canEmitAbandoned cfg
                  { s2 with associatedPersonId := none, associatedSinceMs := none } tsMs
              · exact absurd h hcool
              · rfl
            have := (canEmitAbandoned_iff cfg
              { s2 with associatedPersonId := none, associatedSinceMs := none } tsMs).mp hcool'
            simpa using this
          · intro bound hbound ref href
            dsimp only at href
            revert hmoved
            rw [hbound]
            cases hrp : s2.abandonReferencePoint with
            | none =>
                rw [hrp] at href
                exact absurd href (by simp)
            | some rp =>
                rw [hrp] at href
                rw [Option.some.injEq] at href
                dsimp only
                rw [← href]
                split_ifs with hlt
                · intro h
                  exact absurd rfl h
                · intro _
                  exact le_of_not_lt hlt

/-- State fields of the candidate-cleared observed state, per source of
the track entry. -/
lemma abandonedNoPersonState_fields (tsMs : Int) (sample : AbandonedSample)
    (stOpt : Option ObjectTrackState) :
    (abandonedNoPersonState tsMs sample stOpt).abandonedEmitted
        = (match stOpt with | some s => s.abandonedEmitted | none => false) ∧
    (abandonedNoPersonState tsMs sample stOpt).abandonStartedTsMs
        = (match stOpt with | some s => s.abandonStartedTsMs | none => none) ∧
    (abandonedNoPersonState tsMs sample stOpt).lastEventTsMs
        = (match stOpt with | some s => s.lastEventTsMs | none => none) := by
  cases stOpt <;> exact ⟨rfl, rfl, rfl⟩

/-- Open-window invariant: an entry whose abandoned event already fired in
this window always carries the window start. -/
def abandonedWindowInv (st : Option ObjectTrackState) : Prop :=
  ∀ s, st = some s → s.abandonedEmitted = true → s.abandonStartedTsMs ≠ none

/-- A state is armed for a fresh abandoned_object emission. -/
def abandonedArmed (st : Option ObjectTrackState) : Bool :=
  match st with
  | none => true
  | some s => !s.abandonedEmitted

/-- One abandoned-engine step preserves the invariant and produces one of
the three marker shapes with the corresponding armed evolution. -/
lemma processObjectSample_markers (cfg : AbandonedSettings)
    (regions : List (String × RoiRegion)) (dist : Point → Point → ℚ) (tsMs : Int)
    (sample : AbandonedSample) (personSamples : List AbandonedSample)
    (stOpt : Option ObjectTrackState) (hInv : abandonedWindowInv stOpt) :
    abandonedWindowInv (processObjectSample cfg regions dist tsMs sample personSamples stOpt).1 ∧
    ((abandonedMarker (processObjectSample cfg regions dist tsMs sample personSamples stOpt)
        = none ∧
      (abandonedArmed (processObjectSample cfg regions dist tsMs sample personSamples stOpt).1
          = abandonedArmed stOpt ∨ abandonedArmed stOpt = true)) ∨
     (abandonedMarker (processObjectSample cfg regions dist tsMs sample personSamples stOpt)
        = some false ∧
      abandonedArmed (processObjectSample cfg regions dist tsMs sample personSamples stOpt).1
        = true) ∨
     (abandonedMarker (processObjectSample cfg regions dist tsMs sample personSamples stOpt)
        = some true ∧
      abandonedArmed stOpt = true ∧
      abandonedArmed (processObjectSample cfg regions dist tsMs sample personSamples stOpt).1
        = false)) := by
  obtain ⟨hf1, hf2, hf3⟩ := abandonedNoPersonState_fields tsMs sample stOpt
  unfold processObjectSample
  by_cases hcand : isCandidateObject cfg sample = false
  · rw [if_pos hcand]
    refine ⟨hInv, ?_⟩
    cases stOpt with
    | none =>
        right; left
        exact ⟨by simp [abandonedMarker], rfl⟩
    | some sPre =>
        cases hstart : sPre.abandonStartedTsMs with
        | none =>
            right; left
            refine ⟨by simp [abandonedMarker, hstart], ?_⟩
            have hemf : sPre.abandonedEmitted = false := by
              cases he : sPre.abandonedEmitted
              · rfl
              · exact absurd hstart (hInv sPre rfl he)
            simp [abandonedArmed, hemf]
        | some windowTs =>
            left
            exact ⟨by simp [abandonedMarker, hstart], Or.inl rfl⟩
  · rw [if_neg hcand]
    by_cases hroi : isInsideConfiguredRoi cfg regions sample = false
    · rw [if_pos hroi]
      refine ⟨?_, ?_⟩
      · intro s h
        exact absurd h (by simp)
      · right; left
        exact ⟨by simp [abandonedMarker], rfl⟩
    · rw [if_neg hroi]
      dsimp only
      split
      · refine ⟨?_, ?_⟩
        · intro s h he
          rw [Option.some.injEq] at h
          rw [← h] at he
          simp [resetAbandonment] at he
        · right; left
          constructor
          · simp [abandonedMarker, resetAbandonment]
          · simp [abandonedArmed, resetAbandonment]
      · rcases abandonedNoPersonStep_cases cfg dist tsMs sample
            (abandonedNoPersonState tsMs sample stOpt) with
            ⟨hA1, hA2, hA3⟩ | ⟨hB1, hB2, hB3, hB4⟩ | ⟨hC1, hC2, hC3⟩ |
            ⟨startedTs, hD1, hD2, hD3, hD4, hD5, hD6, hD7⟩
        · refine ⟨?_, ?_⟩
          · intro s h he
            rw [Option.some.injEq] at h
            rw [← h] at he
            rw [hA2] at he
            cases he
          · right; left
            constructor
            · simp [abandonedMarker, hA1, hA3]
            · simp [abandonedArmed, hA2]
        · have hemf : (abandonedNoPersonState tsMs sample stOpt).abandonedEmitted = false := by
            cases hst : stOpt with
            | none => rfl
            | some sPre =>
                rw [hst] at hInv hB4
                show sPre.abandonedEmitted = false
                cases hem : sPre.abandonedEmitted
                · rfl
                · exact absurd (show sPre.abandonStartedTsMs = none from hB4)
                    (hInv sPre rfl hem)
          refine ⟨?_, ?_⟩
          · intro s h he
            rw [Option.some.injEq] at h
            rw [← h] at he
            rw [hB2, hemf] at he
            cases he
          · right; left
            constructor
            · simp [abandonedMarker, hB1, hB3]
            · simp [abandonedArmed, hB2, hemf]
        · obtain ⟨windowTs, hC3'⟩ := hC3
          refine ⟨?_, ?_⟩
          · intro s h he
            rw [Option.some.injEq] at h
            rw [← h, hC3']
            simp
          · left
            constructor
            · simp [abandonedMarker, hC1, hC3']
            · cases hst : stOpt with
              | none =>
                  right
                  rfl
              | some sPre =>
                  left
                  rw [hst] at hC2
                  have h2 : (abandonedNoPersonState tsMs sample (some sPre)).abandonedEmitted
                      = sPre.abandonedEmitted := rfl
                  simp [abandonedArmed, hC2, h2]
        · refine ⟨?_, ?_⟩
          · intro s h he
            rw [Option.some.injEq] at h
            rw [← h, hD1]
            simp
          · right; right
            refine ⟨?_, ?_, ?_⟩
            · have hne : (abandonedNoPersonStep cfg dist tsMs sample
                  (abandonedNoPersonState tsMs sample stOpt)).2.any
                    (fun e => e.name = "abandoned_object") = true := by
                rw [hD7]
                simp
              simp [abandonedMarker, hne]
            · cases hst : stOpt with
              | none => rfl
              | some sPre =>
                  rw [hst] at hD2
                  have h2 : sPre.abandonedEmitted = false :=
                    show sPre.abandonedEmitted = false from hD2
                  simp [abandonedArmed, h2]
            · simp [abandonedArmed, hD3]

/-- From any invariant-respecting state, a run of the abandoned engine
satisfies the once-per-window marker discipline. -/
lemma runAbandonedSteps_separated (cfg : AbandonedSettings)
    (regions : List (String × RoiRegion)) (dist : Point → Point → ℚ)
    (st : Option ObjectTrackState) (inputs : List AbandonedFrameInput)
    (hInv : abandonedWindowInv st) :
    separatedMarkers (abandonedArmed st)
      ((runAbandonedSteps cfg regions dist st inputs).filterMap abandonedMarker) = true := by
  induction inputs generalizing st with
  | nil => simp [runAbandonedSteps, separatedMarkers]
  | cons i rest ih =>
      simp only [runAbandonedSteps]
      rw [List.filterMap_cons]
      obtain ⟨hInv', hshape⟩ := processObjectSample_markers cfg regions dist
        i.tsMs i.sample i.personSamples st hInv
      have ih' := ih (processObjectSample cfg regions dist i.tsMs i.sample
        i.personSamples st).1 hInv'
      rcases hshape with ⟨h1, h2⟩ | ⟨h1, h2⟩ | ⟨h1, h2, h3⟩
      · rw [h1]
        rcases h2 with he | ha
        · rw [he] at ih'
          exact ih'
        · rw [ha]
          cases ha' : abandonedArmed (processObjectSample cfg regions dist i.tsMs
              i.sample i.personSamples st).1
          · rw [ha'] at ih'
            exact separatedMarkers_mono _ ih'
          · rw [ha'] at ih'
            exact ih'
      · rw [h1]
        rw [h2] at ih'
        simpa [separatedMarkers] using ih'
      · rw [h1, h2]
        rw [h3] at ih'
        simpa [separatedMarkers] using ih'

/-- C7: an abandoned_object event (severity high) is emitted only from an
open abandonment window (abandon_started_ts recorded and at least
abandon_delay_ms old), only when the object stayed within
stationary_max_move_px of the reference point when that bound is
configured, only when the per-track cooldown permits, and at most once
per continuous abandonment window over any run of the engine. -/
theorem c7_abandoned_object_conditions (cfg : AbandonedSettings)
    (regions : List (String × RoiRegion)) (dist : Point → Point → ℚ) (tsMs : Int)
    (sample : AbandonedSample) (personSamples : List AbandonedSample)
    (stOpt st' : Option ObjectTrackState) (events : List EventEntry)
    (inputs : List AbandonedFrameInput)
    (hstep : processObjectSample cfg regions dist tsMs sample personSamples stOpt
      = (st', events)) :
    (∀ e ∈ events, e.name = "abandoned_object" →
      e.severity = "high" ∧
      ∃ s', st' = some s' ∧ s'.abandonedEmitted = true ∧
        ∃ startedTs, s'.abandonStartedTsMs = some startedTs ∧
          cfg.abandonDelayMs ≤ max (tsMs - startedTs) 0 ∧
          (0 < cfg.abandonDelayMs → cfg.abandonDelayMs ≤ tsMs - startedTs) ∧
          (∀ bound, cfg.stationaryMaxMovePx = some bound →
           ∀ ref, s'.abandonReferencePoint = some ref →
             dist sample.point ref ≤ bound) ∧
          (∀ sPre, stOpt = some sPre →
            (cfg.eventCooldownMs ≤ 0 ∨ sPre.lastEventTsMs = none ∨
             ∃ last, sPre.lastEventTsMs = some last ∧
               cfg.eventCooldownMs ≤ tsMs - last))) ∧
    separatedMarkers true
      ((runAbandonedSteps cfg regions dist none inputs).filterMap abandonedMarker) = true := by
  constructor
  · intro e he hname
    unfold processObjectSample at hstep
    by_cases hcand : isCandidateObject cfg sample = false
    · rw [if_pos hcand, Prod.mk.injEq] at hstep
      rw [← hstep.2] at he
      exact absurd he (by simp)
    · rw [if_neg hcand] at hstep
      by_cases hroi : isInsideConfiguredRoi cfg regions sample = false
      · rw [if_pos hroi, Prod.mk.injEq] at hstep
        rw [← hstep.2] at he
        exact absurd he (by simp)
      · rw [if_neg hroi] at hstep
        dsimp only at hstep
        split at hstep
        · rw [Prod.mk.injEq] at hstep
          rw [← hstep.2] at he
          exact absurd he (by simp)
        · rw [Prod.mk.injEq] at hstep
          rcases abandonedNoPersonStep_cases cfg dist tsMs sample
              (abandonedNoPersonState tsMs sample stOpt) with
              ⟨hA1, _, _⟩ | ⟨hB1, _, _, _⟩ | ⟨hC1, _, _⟩ |
              ⟨startedTs, hD1, hD2, hD3, hD4, hD5, hD6, hD7⟩
          · rw [← hstep.2, hA1] at he
            exact absurd he (by simp)
          · rw [← hstep.2, hB1] at he
            exact absurd he (by simp)
          · rw [← hstep.2, hC1] at he
            exact absurd he (by simp)
          · rw [← hstep.2, hD7] at he
            have he' := List.mem_singleton.mp he
            refine ⟨by rw [he'], ?_⟩
            refine ⟨(abandonedNoPersonStep cfg dist tsMs sample
              (abandonedNoPersonState tsMs sample stOpt)).1, hstep.1.symm, hD3,
              startedTs, hD1, hD4, ?_, hD6, ?_⟩
            · intro hpos
              rcases max_choice (tsMs - startedTs) 0 with hm | hm
              · rw [hm] at hD4
                exact hD4
              · rw [hm] at hD4
                omega
            · intro sPre hpre
              rw [hpre] at hD5
              exact hD5
  · have hInvNone : abandonedWindowInv none := by
      intro s h
      exact absurd h (by simp)
    simpa [abandonedArmed] using
      runAbandonedSteps_separated cfg regions dist none inputs hInvNone

/-- Witness for C7 at a concrete abandoning state that emits. -/
theorem c7_abandoned_object_conditions_witness :
    (∀ e ∈ (processObjectSample
        (AbandonedSettings.mk true ["backpack"] 100 1000 2000 none none 10000) []
        (fun a b => |a.1 - b.1| + |a.2 - b.2|) 2500 ⟨10, "backpack", (100, 100)⟩ []
        (some (ObjectTrackState.mk "backpack" 1200 (some (100, 100)) none none none none
          (some 500) (some 20) (some (100, 100)) false none))).2,
      e.name = "abandoned_object" →
      e.severity = "high" ∧
      ∃ s', (processObjectSample
          (AbandonedSettings.mk true ["backpack"] 100 1000 2000 none none 10000) []
          (fun a b => |a.1 - b.1| + |a.2 - b.2|) 2500 ⟨10, "backpack", (100, 100)⟩ []
          (some (ObjectTrackState.mk "backpack" 1200 (some (100, 100)) none none none none
            (some 500) (some 20) (some (100, 100)) false none))).1 = some s' ∧
        s'.abandonedEmitted = true ∧
        ∃ startedTs, s'.abandonStartedTsMs = some startedTs ∧
          (AbandonedSettings.mk true ["backpack"] 100 1000 2000 none none
              10000).abandonDelayMs ≤ max (2500 - startedTs) 0 ∧
          (0 < (AbandonedSettings.mk true ["backpack"] 100 1000 2000 none none
              10000).abandonDelayMs →
            (AbandonedSettings.mk true ["backpack"] 100 1000 2000 none none
              10000).abandonDelayMs ≤ 2500 - startedTs) ∧
          (∀ bound, (AbandonedSettings.mk true ["backpack"] 100 1000 2000 none none
              10000).stationaryMaxMovePx = some bound →
           ∀ ref, s'.abandonReferencePoint = some ref →
             (fun (a b : Point) => |a.1 - b.1| + |a.2 - b.2|)
               (⟨10, "backpack", (100, 100)⟩ : AbandonedSample).point ref ≤ bound) ∧
          (∀ sPre, (some (ObjectTrackState.mk "backpack" 1200 (some (100, 100)) none none
              none none (some 500) (some 20) (some (100, 100)) false none) :
                Option ObjectTrackState) = some sPre →
            ((AbandonedSettings.mk true ["backpack"] 100 1000 2000 none none
                10000).eventCooldownMs ≤ 0 ∨ sPre.lastEventTsMs = none ∨
             ∃ last, sPre.lastEventTsMs = some last ∧
               (AbandonedSettings.mk true ["backpack"] 100 1000 2000 none none
                 10000).eventCooldownMs ≤ 2500 - last))) ∧
    separatedMarkers true
      ((runAbandonedSteps
          (AbandonedSettings.mk true ["backpack"] 100 1000 2000 none none 10000) []
          (fun a b => |a.1 - b.1| + |a.2 - b.2|) none []).filterMap abandonedMarker)
        = true :=
  c7_abandoned_object_conditions
    (AbandonedSettings.mk true ["backpack"] 100 1000 2000 none none 10000) []
    (fun a b => |a.1 - b.1| + |a.2 - b.2|) 2500 ⟨10, "backpack", (100, 100)⟩ []
    (some (ObjectTrackState.mk "backpack" 1200 (some (100, 100)) none none none none
      (some 500) (some 20) (some (100, 100)) false none))
    (processObjectSample
      (AbandonedSettings.mk true ["backpack"] 100 1000 2000 none none 10000) []
      (fun a b => |a.1 - b.1| + |a.2 - b.2|) 2500 ⟨10, "backpack", (100, 100)⟩ []
      (some (ObjectTrackState.mk "backpack" 1200 (some (100, 100)) none none none none
        (some 500) (some 20) (some (100, 100)) false none))).1
    (processObjectSample
      (AbandonedSettings.mk true ["backpack"] 100 1000 2000 none none 10000) []
      (fun a b => |a.1 - b.1| + |a.2 - b.2|) 2500 ⟨10, "backpack", (100, 100)⟩ []
      (some (ObjectTrackState.mk "backpack" 1200 (some (100, 100)) none none none none
        (some 500) (some 20) (some (100, 100)) false none))).2
    [] rfl

/-! ### Insight clip lemmas. -/

lemma collectPreFrames_length (cfg : InsightSettings) (frames : List BufferedFrame)
    (triggerSeq : Int) :
    (collectPreFrames cfg frames triggerSeq).length ≤ cfg.preFrames := by
  unfold collectPreFrames
  split_ifs with h
  · simp
  · rw [List.length_drop]
    omega

lemma collectPreFrames_mem (cfg : InsightSettings) (frames : List BufferedFrame)
    (triggerSeq : Int) :
    ∀ f ∈ collectPreFrames cfg frames triggerSeq, f.seq < triggerSeq := by
  unfold collectPreFrames
  split_ifs with h
  · simp
  · intro f hf
    have hmem := List.drop_subset _ _ hf
    rcases List.mem_filter.mp hmem with ⟨-, hdec⟩
    exact of_decide_eq_true hdec

lemma collectPostFrames_length (frames : List BufferedFrame) (triggerSeq : Int)
    (limit : Nat) :
    (collectPostFrames frames triggerSeq limit).length ≤ limit := by
  unfold collectPostFrames
  split_ifs with h
  · simp
  · rw [List.length_take]
    exact min_le_left _ _

lemma collectPostFrames_mem (frames : List BufferedFrame) (triggerSeq : Int)
    (limit : Nat) :
    ∀ f ∈ collectPostFrames frames triggerSeq limit, triggerSeq < f.seq := by
  unfold collectPostFrames
  split_ifs with h
  · simp
  · intro f hf
    have hmem := List.take_subset _ _ hf
    rcases List.mem_filter.mp hmem with ⟨-, hdec⟩
    exact of_decide_eq_true hdec

/-- C8: with frame counts as produced by load_insight_settings (max_frames
clamped into [1,6], pre/post clamped below it), every assembled clip is
the latest at-most-pre_frames buffered frames strictly before the
trigger's seq in arrival order, then the trigger, then at most
post_frames frames strictly after it in arrival order, and the clip never
exceeds max_frames frames. -/
theorem c8_clip_structure (cfg : InsightSettings)
    (framesAtStart framesAfterWait : List BufferedFrame) (trigger : BufferedFrame)
    (rawMax rawPre rawPost : Nat)
    (hmax1 : 1 ≤ cfg.maxFrames)
    (hpre : cfg.preFrames ≤ cfg.maxFrames - 1) :
    (1 ≤ (clampInsightFrameCounts rawMax rawPre rawPost).1 ∧
     (clampInsightFrameCounts rawMax rawPre rawPost).1 ≤ 6 ∧
     (clampInsightFrameCounts rawMax rawPre rawPost).2.1
       ≤ (clampInsightFrameCounts rawMax rawPre rawPost).1 - 1 ∧
     (clampInsightFrameCounts rawMax rawPre rawPost).2.2
       ≤ (clampInsightFrameCounts rawMax rawPre rawPost).1 - 1) ∧
    ∃ pre post,
      buildClip cfg framesAtStart framesAfterWait trigger = pre ++ [trigger] ++ post ∧
      pre = collectPreFrames cfg framesAtStart trigger.seq ∧
      pre.length ≤ cfg.preFrames ∧
      (∀ f ∈ pre, f.seq < trigger.seq) ∧
      post.length ≤ cfg.postFrames ∧
      (∀ f ∈ post, trigger.seq < f.seq) ∧
      (buildClip cfg framesAtStart framesAfterWait trigger).length ≤ cfg.maxFrames := by
  constructor
  · unfold clampInsightFrameCounts hardMaxInsightFrames
    dsimp only
    exact ⟨le_max_left _ _, max_le (by omega) (min_le_right _ _),
      min_le_right _ _, min_le_right _ _⟩
  · have hprelen := collectPreFrames_length cfg framesAtStart trigger.seq
    have hpostlen := collectPostFrames_length framesAfterWait trigger.seq
      (min cfg.postFrames
        (cfg.maxFrames - (collectPreFrames cfg framesAtStart trigger.seq ++ [trigger]).length))
    refine ⟨collectPreFrames cfg framesAtStart trigger.seq,
      collectPostFrames framesAfterWait trigger.seq
        (min cfg.postFrames
          (cfg.maxFrames
            - (collectPreFrames cfg framesAtStart trigger.seq ++ [trigger]).length)),
      ?_, rfl, hprelen, collectPreFrames_mem cfg framesAtStart trigger.seq, ?_, ?_, ?_⟩
    · unfold buildClip
      dsimp only
      rw [List.append_assoc]
      refine List.take_of_length_le ?_
      rw [← List.append_assoc]
      have h1 := le_trans hpostlen (min_le_right _ _)
      simp only [List.length_append, List.length_singleton] at h1 ⊢
      omega
    · exact le_trans hpostlen (min_le_left _ _)
    · exact collectPostFrames_mem framesAfterWait trigger.seq _
    · unfold buildClip
      dsimp only
      exact List.length_take_le _ _

/-- Witness for C8 at a concrete buffer and clamped configuration. -/
theorem c8_clip_structure_witness :
    (1 ≤ (clampInsightFrameCounts 6 3 2).1 ∧
     (clampInsightFrameCounts 6 3 2).1 ≤ 6 ∧
     (clampInsightFrameCounts 6 3 2).2.1 ≤ (clampInsightFrameCounts 6 3 2).1 - 1 ∧
     (clampInsightFrameCounts 6 3 2).2.2 ≤ (clampInsightFrameCounts 6 3 2).1 - 1) ∧
    ∃ pre post,
      buildClip (InsightSettings.mk true 2000 6 3 2 10000 true 5 10000 [])
          [⟨1, "a", 0, "image/jpeg", []⟩, ⟨2, "b", 0, "image/jpeg", []⟩,
           ⟨3, "c", 0, "image/jpeg", []⟩, ⟨4, "d", 0, "image/jpeg", []⟩]
          [⟨1, "a", 0, "image/jpeg", []⟩, ⟨2, "b", 0, "image/jpeg", []⟩,
           ⟨3, "c", 0, "image/jpeg", []⟩, ⟨4, "d", 0, "image/jpeg", []⟩]
          ⟨3, "c", 0, "image/jpeg", []⟩
        = pre ++ [⟨3, "c", 0, "image/jpeg", []⟩] ++ post ∧
      pre = collectPreFrames (InsightSettings.mk true 2000 6 3 2 10000 true 5 10000 [])
          [⟨1, "a", 0, "image/jpeg", []⟩, ⟨2, "b", 0, "image/jpeg", []⟩,
           ⟨3, "c", 0, "image/jpeg", []⟩, ⟨4, "d", 0, "image/jpeg", []⟩]
          (⟨3, "c", 0, "image/jpeg", []⟩ : BufferedFrame).seq ∧
      pre.length ≤ (InsightSettings.mk true 2000 6 3 2 10000 true 5 10000 []).preFrames ∧
      (∀ f ∈ pre, f.seq < (⟨3, "c", 0, "image/jpeg", []⟩ : BufferedFrame).seq) ∧
      post.length ≤ (InsightSettings.mk true 2000 6 3 2 10000 true 5 10000 []).postFrames ∧
      (∀ f ∈ post, (⟨3, "c", 0, "image/jpeg", []⟩ : BufferedFrame).seq < f.seq) ∧
      (buildClip (InsightSettings.mk true 2000 6 3 2 10000 true 5 10000 [])
          [⟨1, "a", 0, "image/jpeg", []⟩, ⟨2, "b", 0, "image/jpeg", []⟩,
           ⟨3, "c", 0, "image/jpeg", []⟩, ⟨4, "d", 0, "image/jpeg", []⟩]
          [⟨1, "a", 0, "image/jpeg", []⟩, ⟨2, "b", 0, "image/jpeg", []⟩,
           ⟨3, "c", 0, "image/jpeg", []⟩, ⟨4, "d", 0, "image/jpeg", []⟩]
          ⟨3, "c", 0, "image/jpeg", []⟩).length
        ≤ (InsightSettings.mk true 2000 6 3 2 10000 true 5 10000 []).maxFrames :=
  c8_clip_structure (InsightSettings.mk true 2000 6 3 2 10000 true 5 10000 [])
    [⟨1, "a", 0, "image/jpeg", []⟩, ⟨2, "b", 0, "image/jpeg", []⟩,
     ⟨3, "c", 0, "image/jpeg", []⟩, ⟨4, "d", 0, "image/jpeg", []⟩]
    [⟨1, "a", 0, "image/jpeg", []⟩, ⟨2, "b", 0, "image/jpeg", []⟩,
     ⟨3, "c", 0, "image/jpeg", []⟩, ⟨4, "d", 0, "image/jpeg", []⟩]
    ⟨3, "c", 0, "image/jpeg", []⟩ 6 3 2 (by decide) (by decide)

/-! ### Trigger lookup and cooldown lemmas. -/

lemma findTriggerFrame_eq_none_iff (frames : List BufferedFrame) (fid : String) :
    findTriggerFrame frames fid = none ↔ frames = [] := by
  unfold findTriggerFrame
  cases hfind : frames.reverse.find? (fun f => f.frameId = fid) with
  | some f =>
      dsimp only
      constructor
      · intro h
        exact absurd h (by simp)
      · intro h
        rw [h] at hfind
        simp at hfind
  | none =>
      dsimp only
      cases frames with
      | nil => simp
      | cons a l =>
          rw [if_neg (by simp)]
          refine iff_of_false ?_ (by simp)
          rw [List.getLast?_eq_getLast (a :: l) (by simp)]
          simp

lemma findTriggerFrame_no_match (frames : List BufferedFrame) (fid : String)
    (h : ∀ f ∈ frames, f.frameId ≠ fid) :
    findTriggerFrame frames fid = frames.getLast? := by
  unfold findTriggerFrame
  have hfind : frames.reverse.find? (fun f => f.frameId = fid) = none := by
    rw [List.find?_eq_none]
    intro f hf
    have hne := h f (List.mem_reverse.mp hf)
    simp [hne]
  rw [hfind]
  dsimp only
  cases frames with
  | nil => rfl
  | cons a l => rw [if_neg (by simp)]

/-- C9: when insights and surprise are enabled, the score reaches the
threshold and neither cooldown is active, run_auto_insight silently
produces no insight exactly when the frame buffer is empty; when no
buffered frame carries the requested trigger_frame_id, the most recent
buffered frame is used as the trigger instead. -/
theorem c9_auto_insight_trigger_fallback (cfg : InsightSettings)
    (frames : List BufferedFrame) (events : List EventEntry) (nowMs : Int)
    (lastInsightTsMs lastSurpriseTriggerTsMs : Option Int) (triggerFrameId : String)
    (h1 : cfg.enabled = true) (h2 : cfg.surpriseEnabled = true)
    (h3 : cfg.surpriseThreshold ≤ computeSurpriseScore cfg events)
    (h4 : isSurpriseCooldownActive cfg lastSurpriseTriggerTsMs nowMs = false)
    (h5 : isInsightCooldownActive cfg lastInsightTsMs nowMs = false) :
    (findTriggerFrame frames triggerFrameId = none ↔ frames = []) ∧
    (runAutoInsightDecision cfg frames events nowMs lastInsightTsMs
        lastSurpriseTriggerTsMs triggerFrameId = .ok none ↔ frames = []) ∧
    ((∀ f ∈ frames, f.frameId ≠ triggerFrameId) →
      runAutoInsightDecision cfg frames events nowMs lastInsightTsMs
        lastSurpriseTriggerTsMs triggerFrameId = .ok frames.getLast?) := by
  have hdec : runAutoInsightDecision cfg frames events nowMs lastInsightTsMs
      lastSurpriseTriggerTsMs triggerFrameId
      = .ok (findTriggerFrame frames triggerFrameId) := by
    unfold runAutoInsightDecision
    rw [if_neg (by rw [h1]; simp), if_neg (by rw [h2]; simp),
      if_neg (not_lt.mpr h3), if_neg (by rw [h4]; simp), if_neg (by rw [h5]; simp)]
  refine ⟨findTriggerFrame_eq_none_iff frames triggerFrameId, ?_, ?_⟩
  · rw [hdec]
    rw [Except.ok.injEq]
    exact findTriggerFrame_eq_none_iff frames triggerFrameId
  · intro hnomatch
    rw [hdec, findTriggerFrame_no_match frames triggerFrameId hnomatch]

/-- Witness for C9 with a two-frame buffer and no matching frame_id. -/
theorem c9_auto_insight_trigger_fallback_witness :
    (findTriggerFrame [⟨1, "a", 0, "image/jpeg", []⟩, ⟨2, "b", 0, "image/jpeg", []⟩]
        "missing" = none ↔
      ([⟨1, "a", 0, "image/jpeg", []⟩, ⟨2, "b", 0, "image/jpeg", []⟩] :
        List BufferedFrame) = []) ∧
    (runAutoInsightDecision (InsightSettings.mk true 2000 6 3 2 10000 true 0 10000 [])
        [⟨1, "a", 0, "image/jpeg", []⟩, ⟨2, "b", 0, "image/jpeg", []⟩] [] 0 none none
        "missing" = .ok none ↔
      ([⟨1, "a", 0, "image/jpeg", []⟩, ⟨2, "b", 0, "image/jpeg", []⟩] :
        List BufferedFrame) = []) ∧
    ((∀ f ∈ ([⟨1, "a", 0, "image/jpeg", []⟩, ⟨2, "b", 0, "image/jpeg", []⟩] :
        List BufferedFrame), f.frameId ≠ "missing") →
      runAutoInsightDecision (InsightSettings.mk true 2000 6 3 2 10000 true 0 10000 [])
        [⟨1, "a", 0, "image/jpeg", []⟩, ⟨2, "b", 0, "image/jpeg", []⟩] [] 0 none none
        "missing"
        = .ok ([⟨1, "a", 0, "image/jpeg", []⟩,
            ⟨2, "b", 0, "image/jpeg", []⟩] : List BufferedFrame).getLast?) :=
  c9_auto_insight_trigger_fallback (InsightSettings.mk true 2000 6 3 2 10000 true 0 10000 [])
    [⟨1, "a", 0, "image/jpeg", []⟩, ⟨2, "b", 0, "image/jpeg", []⟩] [] 0 none none
    "missing" rfl rfl (by simp [computeSurpriseScore]) rfl rfl

/-- C10: run_insight_test records now as the last-insight timestamp before
the clip build and the agent call, so a failed attempt (for any agent
outcome such as a VISION_AGENT_TIMEOUT error) still starts the insight
cooldown: a second insight_test within insight_cooldown_ms fails with
INSIGHT_COOLDOWN. -/
theorem c10_insight_cooldown_starts_before_agent_call (cfg : InsightSettings)
    (frames : List BufferedFrame) (t0 t1 : Int) (lastInsightTsMs : Option Int)
    (agentOutcome : Except String Unit)
    (henabled : cfg.enabled = true) (hne : frames ≠ [])
    (hcool0 : isInsightCooldownActive cfg lastInsightTsMs t0 = false)
    (hpos : 0 < cfg.insightCooldownMs) (hlt : t1 - t0 < cfg.insightCooldownMs) :
    (runInsightTestAttempt cfg frames t0 lastInsightTsMs agentOutcome).1 = some t0 ∧
    (runInsightTestAttempt cfg frames t0 lastInsightTsMs agentOutcome).2 = agentOutcome ∧
    (∀ frames2 : List BufferedFrame, frames2 ≠ [] →
      runInsightTestStart cfg frames2 t1
          (runInsightTestAttempt cfg frames t0 lastInsightTsMs agentOutcome).1
        = .error "INSIGHT_COOLDOWN") := by
  have hstart : ∃ trigger, runInsightTestStart cfg frames t0 lastInsightTsMs
      = .ok (some t0, trigger) := by
    unfold runInsightTestStart
    rw [if_neg (by rw [henabled]; simp)]
    cases hlast : frames.getLast? with
    | none => exact absurd (List.getLast?_eq_none_iff.mp hlast) hne
    | some trigger =>
        refine ⟨trigger, ?_⟩
        dsimp only
        rw [hcool0]
        rw [if_neg (by simp)]
  obtain ⟨trigger, hstart⟩ := hstart
  have hattempt : runInsightTestAttempt cfg frames t0 lastInsightTsMs agentOutcome
      = (some t0, agentOutcome) := by
    unfold runInsightTestAttempt
    rw [hstart]
  refine ⟨by rw [hattempt], by rw [hattempt], ?_⟩
  intro frames2 hne2
  rw [hattempt]
  have hactive : isInsightCooldownActive cfg (some t0) t1 = true := by
    unfold isInsightCooldownActive
    dsimp only
    rw [if_neg (by omega), if_pos hlt]
  unfold runInsightTestStart
  rw [if_neg (by rw [henabled]; simp)]
  cases hlast : frames2.getLast? with
  | none => exact absurd (List.getLast?_eq_none_iff.mp hlast) hne2
  | some trigger2 =>
      dsimp only
      rw [hactive]
      rw [if_pos rfl]

/-- Witness for C10: a first attempt failing with VISION_AGENT_TIMEOUT at
time 0 still makes a second insight_test at time 5000 fail with
INSIGHT_COOLDOWN under a 10000 ms cooldown. -/
theorem c10_insight_cooldown_starts_before_agent_call_witness :
    (runInsightTestAttempt (InsightSettings.mk true 2000 6 3 2 10000 true 5 10000 [])
        [⟨1, "a", 0, "image/jpeg", []⟩] 0 none
        (.error "VISION_AGENT_TIMEOUT")).1 = some 0 ∧
    (runInsightTestAttempt (InsightSettings.mk true 2000 6 3 2 10000 true 5 10000 [])
        [⟨1, "a", 0, "image/jpeg", []⟩] 0 none
        (.error "VISION_AGENT_TIMEOUT")).2 = .error "VISION_AGENT_TIMEOUT" ∧
    (∀ frames2 : List BufferedFrame, frames2 ≠ [] →
      runInsightTestStart (InsightSettings.mk true 2000 6 3 2 10000 true 5 10000 [])
          frames2 5000
          (runInsightTestAttempt (InsightSettings.mk true 2000 6 3 2 10000 true 5 10000 [])
            [⟨1, "a", 0, "image/jpeg", []⟩] 0 none
            (.error "VISION_AGENT_TIMEOUT")).1
        = .error "INSIGHT_COOLDOWN") :=
  c10_insight_cooldown_starts_before_agent_call
    (InsightSettings.mk true 2000 6 3 2 10000 true 5 10000 [])
    [⟨1, "a", 0, "image/jpeg", []⟩] 0 5000 none (.error "VISION_AGENT_TIMEOUT")
    rfl (by simp) rfl (by decide) (by decide)

end Eva
